import Mathlib

/-!
# billy-logger: a logging decorator for go-billy filesystems

Shallow embedding of `logger.go` and of the parts of go-billy and of the Go
standard library it calls, followed by the verification of its contract.

* A Go method that may act on the outside world is a state-passing function
  `StateM τ α`: it takes the world `τ` and returns its result and the new world.
* An interface is a structure of methods; an interface value also carries the
  result of asserting its dynamic type to each optional interface.
* A nil interface value is `none`.  A method of the logger that calls a method
  on an `os.FileInfo` returns an `Outcome`: its results, or a panic when the
  file info is nil.
* The sink handed to `Wrap` and the wrapped filesystem are black boxes acting on
  the world.  To observe them, the world is instantiated with `World σ`: the
  state `σ` of the wrapped filesystem together with the trace of method calls
  that reached it and of sink invocations.
-/

set_option linter.dupNamespace false

namespace BillyLogger

/-! ## Go values -/

/-- A Go `error` value other than nil.  `notSupported` is the one value
`billy.ErrNotSupported`; any other error is given by the text of its `Error()`. -/
inductive GoError where
  | notSupported
  | other (msg : String)
deriving DecidableEq, Repr

/-- The method `Error()`; `billy.ErrNotSupported` is
`errors.New("feature not supported")`. -/
def GoError.Error : GoError → String
  | .notSupported => "feature not supported"
  | .other msg => msg

/-- The variable `billy.ErrNotSupported`. -/
def billy.ErrNotSupported : GoError := GoError.notSupported

/-- A non-nil `billy.File`, identified by a handle. -/
structure File where
  id : Nat
deriving DecidableEq, Repr

/-- A non-nil `billy.Filesystem` as returned by `Chroot` of the wrapped
filesystem: an object of the wrapped implementation, identified by a handle. -/
structure FsRef where
  id : Nat
deriving DecidableEq, Repr

/-- The type `os.FileMode` (a `uint32`). -/
abbrev os.FileMode := Nat

/-- The type `billy.Capability` (a `uint64` bit mask). -/
abbrev billy.Capability := Nat

/-- A `time.Time`. -/
structure Time where
  sec : Int
  nsec : Nat
deriving DecidableEq, Repr

/-- A non-nil `os.FileInfo`, by the three methods the logger reads:
`Name()`, `Mode()` and `IsDir()`.  An `os.FileInfo` as the wrapped filesystem
hands it over is an `Option FileInfo`, `none` being the nil interface. -/
structure FileInfo where
  Name : String
  Mode : os.FileMode
  IsDir : Bool
deriving DecidableEq, Repr

/-- A Go slice: nil, or a sequence (possibly empty). -/
abbrev Slice (α : Type) := Option (List α)

/-- The elements a `range` loop over the slice visits (none for a nil slice). -/
def Slice.elems {α : Type} : Slice α → List α
  | none => []
  | some xs => xs

/-- How a call of a Go function ends: it returns its results, or it panics
(in `logger.go`: a method is called on a nil `os.FileInfo`) and returns
nothing. -/
inductive Outcome (α : Type) where
  | returned (a : α)
  | panicked
deriving DecidableEq, Repr

/-! ## The parts of the Go runtime behind `fmt.Sprintf` -/

/-- Two renderings of the Go library that are taken as given: `strconv.Quote`
(the verb `%q` on a string) and `time.Time.String` (the verb `%s` on a time). -/
structure Runtime where
  quote : String → String
  timeString : Time → String

/-- An operand of `fmt.Sprintf`, by its Go type. -/
inductive Arg where
  | string (s : String)
  | int (i : Int)
  | capability (c : billy.Capability)
  | fileMode (m : os.FileMode)
  | bool (b : Bool)
  | error (e : Option GoError)
  | strings (l : List String)
  | time (t : Time)

/-- The verb `%#o` on an unsigned integer: the digits in base 8, with a `0` put
in front unless the first digit is already `0`. -/
def fmtSharpO (m : Nat) : String :=
  let digits := Nat.toDigits 8 m
  if digits.head? = some '0' then String.mk digits else String.mk ('0' :: digits)

/-- The verb `%v` on an `error`: `<nil>` for nil, else the text of `Error()`. -/
def fmtError : Option GoError → String
  | none => "<nil>"
  | some e => e.Error

/-- The verb `%v` on a `bool`. -/
def fmtBool (b : Bool) : String :=
  if b then "true" else "false"

/-- The verb `%v` on a `[]string`: the elements separated by one space, in
square brackets. -/
def fmtStrings (l : List String) : String :=
  "[" ++ " ".intercalate l ++ "]"

/-- One verb of `fmt.Sprintf` applied to one operand, for the pairs of verb and
operand type that `logger.go` uses; any other pair gives the marker of a bad
verb. -/
def fmtArg (rt : Runtime) (sharp : Bool) (verb : Char) (a : Arg) : String :=
  match sharp, verb, a with
  | false, 'q', .string s => rt.quote s
  | false, 's', .string s => s
  | false, 's', .time t => rt.timeString t
  | false, 'd', .int i => toString i
  | false, 'd', .capability c => toString c
  | true, 'o', .fileMode m => fmtSharpO m
  | false, 'v', .bool b => fmtBool b
  | false, 'v', .error e => fmtError e
  | false, 'v', .strings l => fmtStrings l
  | _, _, _ => "%!" ++ String.singleton verb ++ "(BADVERB)"

/-- The loop of `fmt.Sprintf` over the characters of the format: a verb (with
or without the flag `#`) consumes the next operand, any other character is
copied. -/
def fmt.sprintfChars (rt : Runtime) : List Char → List Arg → String
  | [], _ => ""
  | '%' :: '#' :: v :: rest, a :: as => fmtArg rt true v a ++ fmt.sprintfChars rt rest as
  | '%' :: v :: rest, a :: as => fmtArg rt false v a ++ fmt.sprintfChars rt rest as
  | c :: rest, as => String.singleton c ++ fmt.sprintfChars rt rest as

/-- The function `fmt.Sprintf`. -/
def fmt.Sprintf (rt : Runtime) (f : String) (args : List Arg) : String :=
  fmt.sprintfChars rt f.data args

/-- The function `strings.Join`. -/
def strings.Join (elems : List String) (sep : String) : String :=
  sep.intercalate elems

/-! ## The interfaces of go-billy -/

/-- The interface `billy.Basic`. -/
structure billy.Basic (τ : Type) where
  Create : String → StateM τ (Option File × Option GoError)
  Open : String → StateM τ (Option File × Option GoError)
  OpenFile : String → Int → os.FileMode → StateM τ (Option File × Option GoError)
  Stat : String → StateM τ (Option FileInfo × Option GoError)
  Rename : String → String → StateM τ (Option GoError)
  Remove : String → StateM τ (Option GoError)
  Join : List String → StateM τ String

/-- The interface `billy.TempFile`. -/
structure billy.TempFile (τ : Type) where
  TempFile : String → String → StateM τ (Option File × Option GoError)

/-- The interface `billy.Dir`. -/
structure billy.Dir (τ : Type) where
  ReadDir : String → StateM τ (Slice (Option FileInfo) × Option GoError)
  MkdirAll : String → os.FileMode → StateM τ (Option GoError)

/-- The interface `billy.Symlink`. -/
structure billy.Symlink (τ : Type) where
  Lstat : String → StateM τ (Option FileInfo × Option GoError)
  Symlink : String → String → StateM τ (Option GoError)
  Readlink : String → StateM τ (String × Option GoError)

/-- The interface `billy.Chroot`. -/
structure billy.Chroot (τ : Type) where
  Chroot : String → StateM τ (Option FsRef × Option GoError)
  Root : StateM τ String

/-- The interface `billy.Change`. -/
structure billy.Change (τ : Type) where
  Chmod : String → os.FileMode → StateM τ (Option GoError)
  Lchown : String → Int → Int → StateM τ (Option GoError)
  Chown : String → Int → Int → StateM τ (Option GoError)
  Chtimes : String → Time → Time → StateM τ (Option GoError)

/-- The interface `billy.Capable`. -/
structure billy.Capable (τ : Type) where
  Capabilities : StateM τ billy.Capability

/-- A value of static type `billy.Filesystem`: the methods of the five
interfaces that `billy.Filesystem` embeds, and what the type assertions
`.(billy.Change)` and `.(billy.Capable)` on its dynamic type give. -/
structure FilesystemVal (τ : Type) extends
    billy.Basic τ, billy.TempFile τ, billy.Dir τ, billy.Symlink τ, billy.Chroot τ where
  asChange : Option (billy.Change τ)
  asCapable : Option (billy.Capable τ)

/-- The type assertion `.(billy.Symlink)` on a `billy.Filesystem`: it always
holds, `billy.Filesystem` embeds `billy.Symlink`. -/
def FilesystemVal.asSymlink {τ : Type} (fs : FilesystemVal τ) : Option (billy.Symlink τ) :=
  some fs.toSymlink

/-- A value of static type `billy.Basic`: the methods of `billy.Basic`, and what
the type assertion to each further interface gives on its dynamic type. -/
structure BasicVal (τ : Type) extends billy.Basic τ where
  asTempFile : Option (billy.TempFile τ)
  asDir : Option (billy.Dir τ)
  asSymlink : Option (billy.Symlink τ)
  asChroot : Option (billy.Chroot τ)
  asChange : Option (billy.Change τ)
  asCapable : Option (billy.Capable τ)

/-- The type assertion `.(billy.Filesystem)`: it holds when the dynamic type has
the methods of all five embedded interfaces. -/
def BasicVal.asFilesystem {τ : Type} (fs : BasicVal τ) : Option (FilesystemVal τ) :=
  match fs.asTempFile, fs.asDir, fs.asSymlink, fs.asChroot with
  | some t, some d, some s, some c =>
    some { toBasic := fs.toBasic, toTempFile := t, toDir := d, toSymlink := s, toChroot := c,
           asChange := fs.asChange, asCapable := fs.asCapable }
  | _, _, _, _ => none

/-- A `billy.Filesystem` passed where a `billy.Basic` is expected: the same
value, its dynamic type unchanged. -/
def FilesystemVal.toBasicVal {τ : Type} (fs : FilesystemVal τ) : BasicVal τ :=
  { toBasic := fs.toBasic
    asTempFile := some fs.toTempFile
    asDir := some fs.toDir
    asSymlink := some fs.toSymlink
    asChroot := some fs.toChroot
    asChange := fs.asChange
    asCapable := fs.asCapable }

/-- The constant `billy.DefaultCapabilities`: the six capability bits
`1 << 0` to `1 << 5`. -/
def billy.DefaultCapabilities : billy.Capability := 63

/-- The function `billy.Capabilities`: the `Capabilities()` of a filesystem that
implements `billy.Capable`, else `DefaultCapabilities`. -/
def billy.Capabilities {τ : Type} (fs : BasicVal τ) : StateM τ billy.Capability :=
  match fs.asCapable with
  | some capable => capable.Capabilities
  | none => pure billy.DefaultCapabilities

/-- The function `polyfill.New` of go-billy's `helper/polyfill` (library code
that `Wrap` calls).  A value that implements `billy.Filesystem` is returned as
it is.  Any other value is embedded, as a `billy.Basic`, in a `Polyfill`, whose
method set is that of `billy.Filesystem` plus `Capabilities`: each method of an
interface the embedded value implements is forwarded to it, each other one
answers `billy.ErrNotSupported` (`Root` answers the path separator, `/` on
Unix), and
`Capabilities` is `billy.Capabilities` of the embedded value.  A `Polyfill` has
no method of `billy.Change`. -/
def polyfill.New {τ : Type} (fs : BasicVal τ) : FilesystemVal τ :=
  match fs.asFilesystem with
  | some original => original
  | none =>
    { toBasic := fs.toBasic
      TempFile := fun dir pfx =>
        match fs.asTempFile with
        | none => pure (none, some billy.ErrNotSupported)
        | some t => t.TempFile dir pfx
      ReadDir := fun path =>
        match fs.asDir with
        | none => pure (none, some billy.ErrNotSupported)
        | some d => d.ReadDir path
      MkdirAll := fun filename perm =>
        match fs.asDir with
        | none => pure (some billy.ErrNotSupported)
        | some d => d.MkdirAll filename perm
      Symlink := fun target link =>
        match fs.asSymlink with
        | none => pure (some billy.ErrNotSupported)
        | some s => s.Symlink target link
      Readlink := fun link =>
        match fs.asSymlink with
        | none => pure ("", some billy.ErrNotSupported)
        | some s => s.Readlink link
      Lstat := fun path =>
        match fs.asSymlink with
        | none => pure (none, some billy.ErrNotSupported)
        | some s => s.Lstat path
      Chroot := fun path =>
        match fs.asChroot with
        | none => pure (none, some billy.ErrNotSupported)
        | some c => c.Chroot path
      Root :=
        match fs.asChroot with
        | none => pure "/"
        | some c => c.Root
      asChange := none
      asCapable := some { Capabilities := billy.Capabilities fs } }

/-! ## logger.go -/

/-- The struct `logger`: the wrapped filesystem and the sink.  The sink is a
variadic function; the operands the logger passes it are strings. -/
structure logger (τ : Type) where
  underlying : FilesystemVal τ
  log : List String → StateM τ Unit

/-- The function `Wrap`. -/
def Wrap {τ : Type} (underlying : BasicVal τ) (log : List String → StateM τ Unit) :
    StateM τ (logger τ) :=
  pure { underlying := polyfill.New underlying, log := log }

/-- The method `logf`: the sink gets one operand, the formatted line. -/
def logger.logf {τ : Type} (rt : Runtime) (l : logger τ) (f : String) (args : List Arg) :
    StateM τ Unit :=
  l.log [fmt.Sprintf rt f args]

/-- The function `formatFileInfo`.  On a nil `os.FileInfo` the call `fi.Name()`
panics. -/
def formatFileInfo (rt : Runtime) : Option FileInfo → Outcome String
  | none => Outcome.panicked
  | some fi =>
    Outcome.returned (fmt.Sprintf rt "\x7bname: %q, mode: %#o, dir: %v\x7d"
      [.string fi.Name, .fileMode fi.Mode, .bool fi.IsDir])

/-- The loop of `ReadDir` that fills `descrs`: `formatFileInfo` on each element
in turn; a panic on one element ends the loop and the call. -/
def formatEach (rt : Runtime) : List (Option FileInfo) → Outcome (List String)
  | [] => Outcome.returned []
  | fi :: rest =>
    match formatFileInfo rt fi with
    | Outcome.panicked => Outcome.panicked
    | Outcome.returned descr =>
      match formatEach rt rest with
      | Outcome.panicked => Outcome.panicked
      | Outcome.returned descrs => Outcome.returned (descr :: descrs)

/-- The method `Capabilities`. -/
def logger.Capabilities {τ : Type} (rt : Runtime) (l : logger τ) : StateM τ billy.Capability := do
  let ret ← billy.Capabilities l.underlying.toBasicVal
  l.logf rt "Capabilities(): %d" [.capability ret]
  return ret

/-- The method `Join`. -/
def logger.Join {τ : Type} (rt : Runtime) (l : logger τ) (elem : List String) :
    StateM τ String := do
  let ret ← l.underlying.Join elem
  l.logf rt "Join(%v): %q" [.strings elem, .string ret]
  return ret

/-- The method `Create`. -/
def logger.Create {τ : Type} (rt : Runtime) (l : logger τ) (p : String) :
    StateM τ (Option File × Option GoError) := do
  let (ret, err) ← l.underlying.Create p
  l.logf rt "Create(%q): %v" [.string p, .error err]
  return (ret, err)

/-- The method `Open`. -/
def logger.Open {τ : Type} (rt : Runtime) (l : logger τ) (p : String) :
    StateM τ (Option File × Option GoError) := do
  let (ret, err) ← l.underlying.Open p
  l.logf rt "Open(%q): %v" [.string p, .error err]
  return (ret, err)

/-- The method `OpenFile`. -/
def logger.OpenFile {τ : Type} (rt : Runtime) (l : logger τ) (p : String) (flag : Int)
    (mode : os.FileMode) : StateM τ (Option File × Option GoError) := do
  let (ret, err) ← l.underlying.OpenFile p flag mode
  l.logf rt "OpenFile(%q, %d, %#o): %v" [.string p, .int flag, .fileMode mode, .error err]
  return (ret, err)

/-- The method `Stat`. -/
def logger.Stat {τ : Type} (rt : Runtime) (l : logger τ) (p : String) :
    StateM τ (Outcome (Option FileInfo × Option GoError)) := do
  let (ret, err) ← l.underlying.Stat p
  if err ≠ none then
    l.logf rt "Stat(%q): -, %v" [.string p, .error err]
    return Outcome.returned (ret, err)
  else
    match formatFileInfo rt ret with
    | Outcome.panicked => return Outcome.panicked
    | Outcome.returned descr =>
      l.logf rt "Stat(%q): %s, %v" [.string p, .string descr, .error err]
      return Outcome.returned (ret, err)

/-- The method `Rename`. -/
def logger.Rename {τ : Type} (rt : Runtime) (l : logger τ) (frm dst : String) :
    StateM τ (Option GoError) := do
  let err ← l.underlying.Rename frm dst
  l.logf rt "Rename(%q, %q): %v" [.string frm, .string dst, .error err]
  return err

/-- The method `Remove`. -/
def logger.Remove {τ : Type} (rt : Runtime) (l : logger τ) (p : String) :
    StateM τ (Option GoError) := do
  let err ← l.underlying.Remove p
  l.logf rt "Remove(%q): %v" [.string p, .error err]
  return err

/-- The method `ReadDir`. -/
def logger.ReadDir {τ : Type} (rt : Runtime) (l : logger τ) (p : String) :
    StateM τ (Outcome (Slice (Option FileInfo) × Option GoError)) := do
  let (ret, err) ← l.underlying.ReadDir p
  if err ≠ none then
    l.logf rt "ReadDir(%q): -, %v" [.string p, .error err]
    return Outcome.returned (none, err)
  else
    match formatEach rt ret.elems with
    | Outcome.panicked => return Outcome.panicked
    | Outcome.returned descrs =>
      l.logf rt "ReadDir(%q): [%s], %v"
        [.string p, .string (strings.Join descrs ", "), .error err]
      return Outcome.returned (ret, none)

/-- The method `MkdirAll`. -/
def logger.MkdirAll {τ : Type} (rt : Runtime) (l : logger τ) (p : String) (perm : os.FileMode) :
    StateM τ (Option GoError) := do
  let err ← l.underlying.MkdirAll p perm
  l.logf rt "MkdirAll(%q, %#o): %v" [.string p, .fileMode perm, .error err]
  return err

/-- The method `Symlink`. -/
def logger.Symlink {τ : Type} (rt : Runtime) (l : logger τ) (target link : String) :
    StateM τ (Option GoError) := do
  let err ← match l.underlying.asSymlink with
    | some sfs => sfs.Symlink target link
    | none => pure (some billy.ErrNotSupported)
  l.logf rt "Symlink(%q, %q): %v" [.string target, .string link, .error err]
  return err

/-- The method `Readlink`. -/
def logger.Readlink {τ : Type} (rt : Runtime) (l : logger τ) (p : String) :
    StateM τ (String × Option GoError) := do
  let (ret, err) ← match l.underlying.asSymlink with
    | some sfs => sfs.Readlink p
    | none => pure ("", some billy.ErrNotSupported)
  l.logf rt "Readlink(%q): %q, %v" [.string p, .string ret, .error err]
  return (ret, err)

/-- The method `Lstat`. -/
def logger.Lstat {τ : Type} (rt : Runtime) (l : logger τ) (p : String) :
    StateM τ (Outcome (Option FileInfo × Option GoError)) := do
  let (ret, err) ← match l.underlying.asSymlink with
    | some sfs => sfs.Lstat p
    | none => pure (none, some billy.ErrNotSupported)
  if err ≠ none then
    l.logf rt "Lstat(%q): -, %v" [.string p, .error err]
    return Outcome.returned (ret, err)
  else
    match formatFileInfo rt ret with
    | Outcome.panicked => return Outcome.panicked
    | Outcome.returned descr =>
      l.logf rt "Lstat(%q): %s, %v" [.string p, .string descr, .error err]
      return Outcome.returned (ret, err)

/-- The method `Chmod`. -/
def logger.Chmod {τ : Type} (rt : Runtime) (l : logger τ) (p : String) (mode : os.FileMode) :
    StateM τ (Option GoError) := do
  let err ← match l.underlying.asChange with
    | some cfs => cfs.Chmod p mode
    | none => pure (some billy.ErrNotSupported)
  l.logf rt "Chmod(%q, %#o): %v" [.string p, .fileMode mode, .error err]
  return err

/-- The method `Chown`. -/
def logger.Chown {τ : Type} (rt : Runtime) (l : logger τ) (p : String) (uid gid : Int) :
    StateM τ (Option GoError) := do
  let err ← match l.underlying.asChange with
    | some cfs => cfs.Chown p uid gid
    | none => pure (some billy.ErrNotSupported)
  l.logf rt "Chown(%q, %d, %d): %v" [.string p, .int uid, .int gid, .error err]
  return err

/-- The method `Lchown`. -/
def logger.Lchown {τ : Type} (rt : Runtime) (l : logger τ) (p : String) (uid gid : Int) :
    StateM τ (Option GoError) := do
  let err ← match l.underlying.asChange with
    | some cfs => cfs.Lchown p uid gid
    | none => pure (some billy.ErrNotSupported)
  l.logf rt "Lchown(%q, %d, %d): %v" [.string p, .int uid, .int gid, .error err]
  return err

/-- The method `Chtimes`. -/
def logger.Chtimes {τ : Type} (rt : Runtime) (l : logger τ) (p : String) (atime mtime : Time) :
    StateM τ (Option GoError) := do
  let err ← match l.underlying.asChange with
    | some cfs => cfs.Chtimes p atime mtime
    | none => pure (some billy.ErrNotSupported)
  l.logf rt "Chtimes(%q, %s, %s): %v" [.string p, .time atime, .time mtime, .error err]
  return err

/-- The method `Chroot`. -/
def logger.Chroot {τ : Type} (rt : Runtime) (l : logger τ) (p : String) :
    StateM τ (Option FsRef × Option GoError) := do
  let (ret, err) ← l.underlying.Chroot p
  l.logf rt "Chroot(%q): %v" [.string p, .error err]
  return (ret, err)

/-- The method `TempFile`. -/
def logger.TempFile {τ : Type} (rt : Runtime) (l : logger τ) (dir pfx : String) :
    StateM τ (Option File × Option GoError) := do
  let (ret, err) ← l.underlying.TempFile dir pfx
  l.logf rt "TempFile(%q, %q): %v" [.string dir, .string pfx, .error err]
  return (ret, err)

/-- The method `Root`. -/
def logger.Root {τ : Type} (rt : Runtime) (l : logger τ) : StateM τ String := do
  let ret ← l.underlying.Root
  l.logf rt "Root(): %q" [.string ret]
  return ret

/-! ## Observing the wrapped filesystem and the sink -/

/-- A method call on the wrapped filesystem, with its operands. -/
inductive Call where
  | Create (p : String)
  | Open (p : String)
  | OpenFile (p : String) (flag : Int) (mode : os.FileMode)
  | Stat (p : String)
  | Rename (frm dst : String)
  | Remove (p : String)
  | Join (elem : List String)
  | TempFile (dir pfx : String)
  | ReadDir (p : String)
  | MkdirAll (p : String) (perm : os.FileMode)
  | Lstat (p : String)
  | Symlink (target link : String)
  | Readlink (p : String)
  | Chroot (p : String)
  | Root
  | Chmod (p : String) (mode : os.FileMode)
  | Lchown (p : String) (uid gid : Int)
  | Chown (p : String) (uid gid : Int)
  | Chtimes (p : String) (atime mtime : Time)
  | Capabilities
deriving DecidableEq, Repr

/-- What an observer of the wrapped filesystem and of the sink sees: a method of
the wrapped filesystem was called and has returned, or the sink was invoked with
the given operands. -/
inductive Event where
  | call (c : Call)
  | sink (msg : List String)
deriving DecidableEq, Repr

/-- The observed world: the state of the wrapped filesystem and the events so
far, oldest first. -/
structure World (σ : Type) where
  fs : σ
  trace : List Event

/-- A method of the wrapped filesystem run in the observed world: it acts on the
state of the filesystem, and its call is recorded when it returns.  It has no
access to the sink. -/
def World.invoke {σ α : Type} (c : Call) (f : StateM σ α) : StateM (World σ) α :=
  fun w => let r := f w.fs; (r.1, { fs := r.2, trace := w.trace ++ [Event.call c] })

/-- The observed sink: each invocation is recorded with its operands. -/
def World.sink {σ : Type} (msg : List String) : StateM (World σ) Unit :=
  fun w => ((), { w with trace := w.trace ++ [Event.sink msg] })

/-- The operands of the sink invocations of a trace, oldest first. -/
def sinkCalls : List Event → List (List String)
  | [] => []
  | Event.sink msg :: es => msg :: sinkCalls es
  | Event.call _ :: es => sinkCalls es

/-- The methods of `billy.Basic`, observed. -/
def billy.Basic.traced {σ : Type} (b : billy.Basic σ) : billy.Basic (World σ) where
  Create p := World.invoke (.Create p) (b.Create p)
  Open p := World.invoke (.Open p) (b.Open p)
  OpenFile p flag mode := World.invoke (.OpenFile p flag mode) (b.OpenFile p flag mode)
  Stat p := World.invoke (.Stat p) (b.Stat p)
  Rename frm dst := World.invoke (.Rename frm dst) (b.Rename frm dst)
  Remove p := World.invoke (.Remove p) (b.Remove p)
  Join elem := World.invoke (.Join elem) (b.Join elem)

/-- The method of `billy.TempFile`, observed. -/
def billy.TempFile.traced {σ : Type} (t : billy.TempFile σ) : billy.TempFile (World σ) where
  TempFile dir pfx := World.invoke (.TempFile dir pfx) (t.TempFile dir pfx)

/-- The methods of `billy.Dir`, observed. -/
def billy.Dir.traced {σ : Type} (d : billy.Dir σ) : billy.Dir (World σ) where
  ReadDir p := World.invoke (.ReadDir p) (d.ReadDir p)
  MkdirAll p perm := World.invoke (.MkdirAll p perm) (d.MkdirAll p perm)

/-- The methods of `billy.Symlink`, observed. -/
def billy.Symlink.traced {σ : Type} (s : billy.Symlink σ) : billy.Symlink (World σ) where
  Lstat p := World.invoke (.Lstat p) (s.Lstat p)
  Symlink target link := World.invoke (.Symlink target link) (s.Symlink target link)
  Readlink p := World.invoke (.Readlink p) (s.Readlink p)

/-- The methods of `billy.Chroot`, observed. -/
def billy.Chroot.traced {σ : Type} (c : billy.Chroot σ) : billy.Chroot (World σ) where
  Chroot p := World.invoke (.Chroot p) (c.Chroot p)
  Root := World.invoke .Root c.Root

/-- The methods of `billy.Change`, observed. -/
def billy.Change.traced {σ : Type} (c : billy.Change σ) : billy.Change (World σ) where
  Chmod p mode := World.invoke (.Chmod p mode) (c.Chmod p mode)
  Lchown p uid gid := World.invoke (.Lchown p uid gid) (c.Lchown p uid gid)
  Chown p uid gid := World.invoke (.Chown p uid gid) (c.Chown p uid gid)
  Chtimes p atime mtime := World.invoke (.Chtimes p atime mtime) (c.Chtimes p atime mtime)

/-- The method of `billy.Capable`, observed. -/
def billy.Capable.traced {σ : Type} (c : billy.Capable σ) : billy.Capable (World σ) where
  Capabilities := World.invoke .Capabilities c.Capabilities

/-- A `billy.Filesystem` value with every method observed; its dynamic type
implements the same interfaces. -/
def FilesystemVal.traced {σ : Type} (fs : FilesystemVal σ) : FilesystemVal (World σ) where
  toBasic := fs.toBasic.traced
  toTempFile := fs.toTempFile.traced
  toDir := fs.toDir.traced
  toSymlink := fs.toSymlink.traced
  toChroot := fs.toChroot.traced
  asChange := fs.asChange.map billy.Change.traced
  asCapable := fs.asCapable.map billy.Capable.traced

/-- A `billy.Basic` value with every method observed; its dynamic type
implements the same interfaces. -/
def BasicVal.traced {σ : Type} (fs : BasicVal σ) : BasicVal (World σ) where
  toBasic := fs.toBasic.traced
  asTempFile := fs.asTempFile.map billy.TempFile.traced
  asDir := fs.asDir.map billy.Dir.traced
  asSymlink := fs.asSymlink.map billy.Symlink.traced
  asChroot := fs.asChroot.map billy.Chroot.traced
  asChange := fs.asChange.map billy.Change.traced
  asCapable := fs.asCapable.map billy.Capable.traced

/-! ## Properties of a run -/

/-- The string `s` starts with `pre`. -/
def StartsWith (pre s : String) : Prop :=
  pre.data <+: s.data

/-- The string `sub` occurs in `s`. -/
def Contains (s sub : String) : Prop :=
  sub.data <:+: s.data

instance (pre s : String) : Decidable (StartsWith pre s) :=
  inferInstanceAs (Decidable (pre.data <+: s.data))

instance (s sub : String) : Decidable (Contains s sub) :=
  inferInstanceAs (Decidable (sub.data <:+: s.data))

/-- A run that only adds events to the trace, none of them a sink invocation. -/
def SinkFree {σ α : Type} (m : StateM (World σ) α) : Prop :=
  ∀ w, ∃ evs, (m w).2.trace = w.trace ++ evs ∧ sinkCalls evs = []

/-- The run of `m` from `w` adds events to the trace, among them exactly one
sink invocation; its operand is a single string, which starts with `name` and
in which each of `args` occurs. -/
def LogsOnce {σ α : Type} (m : StateM (World σ) α) (w : World σ) (name : String)
    (args : List String) : Prop :=
  ∃ evs line, (m w).2.trace = w.trace ++ evs ∧ sinkCalls evs = [[line]] ∧
    StartsWith name line ∧ ∀ a ∈ args, Contains line a

/-! ## A small filesystem for the examples -/

/-- A runtime for the examples.  It quotes as `strconv.Quote` does a string of
printable ASCII characters other than the double quote and the backslash. -/
def demoRuntime : Runtime where
  quote s := "\"" ++ s ++ "\""
  timeString t := toString t.sec ++ "." ++ toString t.nsec

/-- The error the example filesystem gives for the one path it does not have. -/
def demoNotExist : GoError := GoError.other "file does not exist"

/-- Opening a path of the example filesystem: every path but `missing.txt`
is there; the state counts the calls served. -/
def demoOpen (p : String) : StateM Nat (Option File × Option GoError) :=
  fun n =>
    if p = "missing.txt" then ((none, some demoNotExist), n + 1)
    else ((some (File.mk n), none), n + 1)

/-- The file info of a path of the example filesystem. -/
def demoStat (p : String) : StateM Nat (Option FileInfo × Option GoError) :=
  fun n =>
    if p = "missing.txt" then ((none, some demoNotExist), n + 1)
    else ((some (FileInfo.mk p 420 false), none), n + 1)

/-- Removing or renaming a path of the example filesystem. -/
def demoRemove (p : String) : StateM Nat (Option GoError) :=
  fun n => (if p = "missing.txt" then some demoNotExist else none, n + 1)

/-- The `billy.Basic` methods of the example filesystem. -/
def demoBasic : billy.Basic Nat where
  Create := fun _ n => ((some (File.mk n), none), n + 1)
  Open := demoOpen
  OpenFile := fun p _ _ => demoOpen p
  Stat := demoStat
  Rename := fun frm _ => demoRemove frm
  Remove := demoRemove
  Join := fun elem n => ("/".intercalate elem, n + 1)

/-- The `billy.TempFile` method of the example filesystem. -/
def demoTempFile : billy.TempFile Nat where
  TempFile := fun _ _ n => ((some (File.mk n), none), n + 1)

/-- The `billy.Dir` methods of the example filesystem.  Reading the directory
`broken` fails after one entry has been read. -/
def demoDir : billy.Dir Nat where
  ReadDir := fun p n =>
    if p = "broken" then
      ((some [some (FileInfo.mk "a.txt" 420 false)],
        some (GoError.other "input/output error")), n + 1)
    else
      ((some [some (FileInfo.mk "a.txt" 420 false), some (FileInfo.mk "sub" 2147484141 true)],
        none), n + 1)
  MkdirAll := fun _ _ n => (none, n + 1)

/-- The `billy.Symlink` methods of the example filesystem. -/
def demoSymlink : billy.Symlink Nat where
  Lstat := demoStat
  Symlink := fun _ _ n => (none, n + 1)
  Readlink := fun p n => ((p, none), n + 1)

/-- The `billy.Chroot` methods of the example filesystem. -/
def demoChroot : billy.Chroot Nat where
  Chroot := fun _ n => ((some (FsRef.mk n), none), n + 1)
  Root := fun n => ("/", n + 1)

/-- The `billy.Change` methods of the example filesystem: each one succeeds. -/
def demoChange : billy.Change Nat where
  Chmod := fun _ _ n => (none, n + 1)
  Lchown := fun _ _ _ n => (none, n + 1)
  Chown := fun _ _ _ n => (none, n + 1)
  Chtimes := fun _ _ _ n => (none, n + 1)

/-- An example value that implements `billy.Basic` and nothing else. -/
def demoPlain : BasicVal Nat where
  toBasic := demoBasic
  asTempFile := none
  asDir := none
  asSymlink := none
  asChroot := none
  asChange := none
  asCapable := none

/-- An example value that implements `billy.Basic` and `billy.Change`, and not
the whole of `billy.Filesystem`. -/
def demoChanging : BasicVal Nat where
  toBasic := demoBasic
  asTempFile := none
  asDir := none
  asSymlink := none
  asChroot := none
  asChange := some demoChange
  asCapable := none

/-- An example value that implements `billy.Filesystem`, and neither
`billy.Change` nor `billy.Capable`. -/
def demoFilesystem : BasicVal Nat where
  toBasic := demoBasic
  asTempFile := some demoTempFile
  asDir := some demoDir
  asSymlink := some demoSymlink
  asChroot := some demoChroot
  asChange := none
  asCapable := none

/-- The `billy.Basic` methods of an example value that breaks the contract of
`Stat`: it returns a nil file info together with a nil error. -/
def demoHollowBasic : billy.Basic Nat where
  Create := fun _ n => ((some (File.mk n), none), n + 1)
  Open := demoOpen
  OpenFile := fun p _ _ => demoOpen p
  Stat := fun _ n => ((none, none), n + 1)
  Rename := fun frm _ => demoRemove frm
  Remove := demoRemove
  Join := fun elem n => ("/".intercalate elem, n + 1)

/-- The `billy.Symlink` methods of that value: `Lstat` too returns a nil file
info together with a nil error. -/
def demoHollowSymlink : billy.Symlink Nat where
  Lstat := fun _ n => ((none, none), n + 1)
  Symlink := fun _ _ n => (none, n + 1)
  Readlink := fun p n => ((p, none), n + 1)

/-- The `billy.Dir` methods of that value: the listing `ReadDir` returns, with
a nil error, has a nil element after its first entry. -/
def demoHollowDir : billy.Dir Nat where
  ReadDir := fun _ n => ((some [some (FileInfo.mk "a.txt" 420 false), none], none), n + 1)
  MkdirAll := fun _ _ n => (none, n + 1)

/-- An example value that implements `billy.Filesystem` and returns nil file
infos without an error. -/
def demoHollow : BasicVal Nat where
  toBasic := demoHollowBasic
  asTempFile := some demoTempFile
  asDir := some demoHollowDir
  asSymlink := some demoHollowSymlink
  asChroot := some demoChroot
  asChange := none
  asCapable := none

/-- The world the examples start in: nothing has happened yet. -/
def demoWorld : World Nat where
  fs := 0
  trace := []

/-- The logger `Wrap` makes around an example value, with the observed sink. -/
def demoLogger (o : BasicVal Nat) : logger (World Nat) :=
  (Wrap o.traced World.sink demoWorld).1

/-! ## The lines `fmt.Sprintf` builds from the formats of `logger.go` -/

theorem data_singleton (c : Char) : (String.singleton c).data = [c] := rfl


theorem Sprintf_Capabilities (rt : Runtime) (ret : billy.Capability) :
    fmt.Sprintf rt "Capabilities(): %d" [.capability ret] =
      "Capabilities(): " ++ toString ret := by
  apply String.ext
  simp [fmt.Sprintf, fmt.sprintfChars, fmtArg, data_singleton]

theorem Sprintf_Join (rt : Runtime) (elem : List String) (ret : String) :
    fmt.Sprintf rt "Join(%v): %q" [.strings elem, .string ret] =
      "Join(" ++ fmtStrings elem ++ "): " ++ rt.quote ret := by
  apply String.ext
  simp [fmt.Sprintf, fmt.sprintfChars, fmtArg, data_singleton]

theorem Sprintf_Create (rt : Runtime) (p : String) (err : Option GoError) :
    fmt.Sprintf rt "Create(%q): %v" [.string p, .error err] =
      "Create(" ++ rt.quote p ++ "): " ++ fmtError err := by
  apply String.ext
  simp [fmt.Sprintf, fmt.sprintfChars, fmtArg, data_singleton]

theorem Sprintf_Open (rt : Runtime) (p : String) (err : Option GoError) :
    fmt.Sprintf rt "Open(%q): %v" [.string p, .error err] =
      "Open(" ++ rt.quote p ++ "): " ++ fmtError err := by
  apply String.ext
  simp [fmt.Sprintf, fmt.sprintfChars, fmtArg, data_singleton]

theorem Sprintf_OpenFile (rt : Runtime) (p : String) (flag : Int) (mode : os.FileMode)
    (err : Option GoError) :
    fmt.Sprintf rt "OpenFile(%q, %d, %#o): %v" [.string p, .int flag, .fileMode mode, .error err] =
      "OpenFile(" ++ rt.quote p ++ ", " ++ toString flag ++ ", " ++ fmtSharpO mode ++ "): "
        ++ fmtError err := by
  apply String.ext
  simp [fmt.Sprintf, fmt.sprintfChars, fmtArg, data_singleton]

theorem Sprintf_Stat_fail (rt : Runtime) (p : String) (err : Option GoError) :
    fmt.Sprintf rt "Stat(%q): -, %v" [.string p, .error err] =
      "Stat(" ++ rt.quote p ++ "): -, " ++ fmtError err := by
  apply String.ext
  simp [fmt.Sprintf, fmt.sprintfChars, fmtArg, data_singleton]

theorem Sprintf_Stat_ok (rt : Runtime) (p descr : String) (err : Option GoError) :
    fmt.Sprintf rt "Stat(%q): %s, %v" [.string p, .string descr, .error err] =
      "Stat(" ++ rt.quote p ++ "): " ++ descr ++ ", " ++ fmtError err := by
  apply String.ext
  simp [fmt.Sprintf, fmt.sprintfChars, fmtArg, data_singleton]

theorem Sprintf_Rename (rt : Runtime) (frm dst : String) (err : Option GoError) :
    fmt.Sprintf rt "Rename(%q, %q): %v" [.string frm, .string dst, .error err] =
      "Rename(" ++ rt.quote frm ++ ", " ++ rt.quote dst ++ "): " ++ fmtError err := by
  apply String.ext
  simp [fmt.Sprintf, fmt.sprintfChars, fmtArg, data_singleton]

theorem Sprintf_Remove (rt : Runtime) (p : String) (err : Option GoError) :
    fmt.Sprintf rt "Remove(%q): %v" [.string p, .error err] =
      "Remove(" ++ rt.quote p ++ "): " ++ fmtError err := by
  apply String.ext
  simp [fmt.Sprintf, fmt.sprintfChars, fmtArg, data_singleton]

theorem Sprintf_ReadDir_fail (rt : Runtime) (p : String) (err : Option GoError) :
    fmt.Sprintf rt "ReadDir(%q): -, %v" [.string p, .error err] =
      "ReadDir(" ++ rt.quote p ++ "): -, " ++ fmtError err := by
  apply String.ext
  simp [fmt.Sprintf, fmt.sprintfChars, fmtArg, data_singleton]

theorem Sprintf_ReadDir_ok (rt : Runtime) (p descrs : String) (err : Option GoError) :
    fmt.Sprintf rt "ReadDir(%q): [%s], %v" [.string p, .string descrs, .error err] =
      "ReadDir(" ++ rt.quote p ++ "): [" ++ descrs ++ "], " ++ fmtError err := by
  apply String.ext
  simp [fmt.Sprintf, fmt.sprintfChars, fmtArg, data_singleton]

theorem Sprintf_MkdirAll (rt : Runtime) (p : String) (perm : os.FileMode) (err : Option GoError) :
    fmt.Sprintf rt "MkdirAll(%q, %#o): %v" [.string p, .fileMode perm, .error err] =
      "MkdirAll(" ++ rt.quote p ++ ", " ++ fmtSharpO perm ++ "): " ++ fmtError err := by
  apply String.ext
  simp [fmt.Sprintf, fmt.sprintfChars, fmtArg, data_singleton]

theorem Sprintf_Symlink (rt : Runtime) (target link : String) (err : Option GoError) :
    fmt.Sprintf rt "Symlink(%q, %q): %v" [.string target, .string link, .error err] =
      "Symlink(" ++ rt.quote target ++ ", " ++ rt.quote link ++ "): " ++ fmtError err := by
  apply String.ext
  simp [fmt.Sprintf, fmt.sprintfChars, fmtArg, data_singleton]

theorem Sprintf_Readlink (rt : Runtime) (p ret : String) (err : Option GoError) :
    fmt.Sprintf rt "Readlink(%q): %q, %v" [.string p, .string ret, .error err] =
      "Readlink(" ++ rt.quote p ++ "): " ++ rt.quote ret ++ ", " ++ fmtError err := by
  apply String.ext
  simp [fmt.Sprintf, fmt.sprintfChars, fmtArg, data_singleton]

theorem Sprintf_Lstat_fail (rt : Runtime) (p : String) (err : Option GoError) :
    fmt.Sprintf rt "Lstat(%q): -, %v" [.string p, .error err] =
      "Lstat(" ++ rt.quote p ++ "): -, " ++ fmtError err := by
  apply String.ext
  simp [fmt.Sprintf, fmt.sprintfChars, fmtArg, data_singleton]

theorem Sprintf_Lstat_ok (rt : Runtime) (p descr : String) (err : Option GoError) :
    fmt.Sprintf rt "Lstat(%q): %s, %v" [.string p, .string descr, .error err] =
      "Lstat(" ++ rt.quote p ++ "): " ++ descr ++ ", " ++ fmtError err := by
  apply String.ext
  simp [fmt.Sprintf, fmt.sprintfChars, fmtArg, data_singleton]

theorem Sprintf_Chmod (rt : Runtime) (p : String) (mode : os.FileMode) (err : Option GoError) :
    fmt.Sprintf rt "Chmod(%q, %#o): %v" [.string p, .fileMode mode, .error err] =
      "Chmod(" ++ rt.quote p ++ ", " ++ fmtSharpO mode ++ "): " ++ fmtError err := by
  apply String.ext
  simp [fmt.Sprintf, fmt.sprintfChars, fmtArg, data_singleton]

theorem Sprintf_Chown (rt : Runtime) (p : String) (uid gid : Int) (err : Option GoError) :
    fmt.Sprintf rt "Chown(%q, %d, %d): %v" [.string p, .int uid, .int gid, .error err] =
      "Chown(" ++ rt.quote p ++ ", " ++ toString uid ++ ", " ++ toString gid ++ "): "
        ++ fmtError err := by
  apply String.ext
  simp [fmt.Sprintf, fmt.sprintfChars, fmtArg, data_singleton]

theorem Sprintf_Lchown (rt : Runtime) (p : String) (uid gid : Int) (err : Option GoError) :
    fmt.Sprintf rt "Lchown(%q, %d, %d): %v" [.string p, .int uid, .int gid, .error err] =
      "Lchown(" ++ rt.quote p ++ ", " ++ toString uid ++ ", " ++ toString gid ++ "): "
        ++ fmtError err := by
  apply String.ext
  simp [fmt.Sprintf, fmt.sprintfChars, fmtArg, data_singleton]

theorem Sprintf_Chtimes (rt : Runtime) (p : String) (atime mtime : Time) (err : Option GoError) :
    fmt.Sprintf rt "Chtimes(%q, %s, %s): %v" [.string p, .time atime, .time mtime, .error err] =
      "Chtimes(" ++ rt.quote p ++ ", " ++ rt.timeString atime ++ ", " ++ rt.timeString mtime
        ++ "): " ++ fmtError err := by
  apply String.ext
  simp [fmt.Sprintf, fmt.sprintfChars, fmtArg, data_singleton]

theorem Sprintf_Chroot (rt : Runtime) (p : String) (err : Option GoError) :
    fmt.Sprintf rt "Chroot(%q): %v" [.string p, .error err] =
      "Chroot(" ++ rt.quote p ++ "): " ++ fmtError err := by
  apply String.ext
  simp [fmt.Sprintf, fmt.sprintfChars, fmtArg, data_singleton]

theorem Sprintf_TempFile (rt : Runtime) (dir pfx : String) (err : Option GoError) :
    fmt.Sprintf rt "TempFile(%q, %q): %v" [.string dir, .string pfx, .error err] =
      "TempFile(" ++ rt.quote dir ++ ", " ++ rt.quote pfx ++ "): " ++ fmtError err := by
  apply String.ext
  simp [fmt.Sprintf, fmt.sprintfChars, fmtArg, data_singleton]

theorem Sprintf_Root (rt : Runtime) (ret : String) :
    fmt.Sprintf rt "Root(): %q" [.string ret] =
      "Root(): " ++ rt.quote ret := by
  apply String.ext
  simp [fmt.Sprintf, fmt.sprintfChars, fmtArg, data_singleton]

theorem logger.Capabilities_run {τ : Type} (rt : Runtime) (l : logger τ) {w w1 : τ}
    {ret : billy.Capability}
    (h : billy.Capabilities l.underlying.toBasicVal w = (ret, w1)) :
    l.Capabilities rt w =
      (ret,
        (l.log ["Capabilities(): " ++ toString ret] w1).2) := by
  simp only [logger.Capabilities, logger.logf, Sprintf_Capabilities, bind, StateT.bind, h]
  rfl

theorem logger.Join_run {τ : Type} (rt : Runtime) (l : logger τ) (elem : List String) {w w1 : τ}
    {ret : String}
    (h : l.underlying.Join elem w = (ret, w1)) :
    l.Join rt elem w =
      (ret,
        (l.log ["Join(" ++ fmtStrings elem ++ "): " ++ rt.quote ret] w1).2) := by
  simp only [logger.Join, logger.logf, Sprintf_Join, bind, StateT.bind, h]
  rfl

theorem logger.Create_run {τ : Type} (rt : Runtime) (l : logger τ) (p : String) {w w1 : τ}
    {ret : Option File} {err : Option GoError}
    (h : l.underlying.Create p w = ((ret, err), w1)) :
    l.Create rt p w =
      ((ret, err),
        (l.log ["Create(" ++ rt.quote p ++ "): " ++ fmtError err] w1).2) := by
  simp only [logger.Create, logger.logf, Sprintf_Create, bind, StateT.bind, h]
  rfl

theorem logger.Open_run {τ : Type} (rt : Runtime) (l : logger τ) (p : String) {w w1 : τ}
    {ret : Option File} {err : Option GoError}
    (h : l.underlying.Open p w = ((ret, err), w1)) :
    l.Open rt p w =
      ((ret, err),
        (l.log ["Open(" ++ rt.quote p ++ "): " ++ fmtError err] w1).2) := by
  simp only [logger.Open, logger.logf, Sprintf_Open, bind, StateT.bind, h]
  rfl

theorem logger.OpenFile_run {τ : Type} (rt : Runtime) (l : logger τ) (p : String) (flag : Int)
    (mode : os.FileMode) {w w1 : τ}
    {ret : Option File} {err : Option GoError}
    (h : l.underlying.OpenFile p flag mode w = ((ret, err), w1)) :
    l.OpenFile rt p flag mode w =
      ((ret, err),
        (l.log ["OpenFile(" ++ rt.quote p ++ ", " ++ toString flag ++ ", " ++ fmtSharpO mode
          ++ "): " ++ fmtError err] w1).2) := by
  simp only [logger.OpenFile, logger.logf, Sprintf_OpenFile, bind, StateT.bind, h]
  rfl

theorem logger.Rename_run {τ : Type} (rt : Runtime) (l : logger τ) (frm dst : String) {w w1 : τ}
    {err : Option GoError}
    (h : l.underlying.Rename frm dst w = (err, w1)) :
    l.Rename rt frm dst w =
      (err,
        (l.log ["Rename(" ++ rt.quote frm ++ ", " ++ rt.quote dst ++ "): "
          ++ fmtError err] w1).2) := by
  simp only [logger.Rename, logger.logf, Sprintf_Rename, bind, StateT.bind, h]
  rfl

theorem logger.Remove_run {τ : Type} (rt : Runtime) (l : logger τ) (p : String) {w w1 : τ}
    {err : Option GoError}
    (h : l.underlying.Remove p w = (err, w1)) :
    l.Remove rt p w =
      (err,
        (l.log ["Remove(" ++ rt.quote p ++ "): " ++ fmtError err] w1).2) := by
  simp only [logger.Remove, logger.logf, Sprintf_Remove, bind, StateT.bind, h]
  rfl

theorem logger.MkdirAll_run {τ : Type} (rt : Runtime) (l : logger τ) (p : String)
    (perm : os.FileMode) {w w1 : τ}
    {err : Option GoError}
    (h : l.underlying.MkdirAll p perm w = (err, w1)) :
    l.MkdirAll rt p perm w =
      (err,
        (l.log ["MkdirAll(" ++ rt.quote p ++ ", " ++ fmtSharpO perm ++ "): "
          ++ fmtError err] w1).2) := by
  simp only [logger.MkdirAll, logger.logf, Sprintf_MkdirAll, bind, StateT.bind, h]
  rfl

theorem logger.Symlink_run {τ : Type} (rt : Runtime) (l : logger τ) (target link : String)
    {w w1 : τ}
    {err : Option GoError}
    (h : l.underlying.Symlink target link w = (err, w1)) :
    l.Symlink rt target link w =
      (err,
        (l.log ["Symlink(" ++ rt.quote target ++ ", " ++ rt.quote link ++ "): "
          ++ fmtError err] w1).2) := by
  simp only
      [logger.Symlink, logger.logf, Sprintf_Symlink, bind, StateT.bind, FilesystemVal.asSymlink, h]
  rfl

theorem logger.Readlink_run {τ : Type} (rt : Runtime) (l : logger τ) (p : String) {w w1 : τ}
    {ret : String} {err : Option GoError}
    (h : l.underlying.Readlink p w = ((ret, err), w1)) :
    l.Readlink rt p w =
      ((ret, err),
        (l.log ["Readlink(" ++ rt.quote p ++ "): " ++ rt.quote ret ++ ", "
          ++ fmtError err] w1).2) := by
  simp only
      [logger.Readlink, logger.logf, Sprintf_Readlink, bind, StateT.bind, FilesystemVal.asSymlink,
      h]
  rfl

theorem logger.Chmod_some_run {τ : Type} (rt : Runtime) (l : logger τ) (p : String)
    (mode : os.FileMode) {w w1 : τ}
    {err : Option GoError} {cfs : billy.Change τ}
    (hc : l.underlying.asChange = some cfs)
    (h : cfs.Chmod p mode w = (err, w1)) :
    l.Chmod rt p mode w =
      (err,
        (l.log ["Chmod(" ++ rt.quote p ++ ", " ++ fmtSharpO mode ++ "): "
          ++ fmtError err] w1).2) := by
  simp only [logger.Chmod, logger.logf, Sprintf_Chmod, bind, StateT.bind, hc, h]
  rfl

theorem logger.Chmod_none_run {τ : Type} (rt : Runtime) (l : logger τ) (p : String)
    (mode : os.FileMode) (w : τ)
    (hc : l.underlying.asChange = none) :
    l.Chmod rt p mode w =
      (some billy.ErrNotSupported,
        (l.log ["Chmod(" ++ rt.quote p ++ ", " ++ fmtSharpO mode ++ "): "
          ++ fmtError (some billy.ErrNotSupported)] w).2) := by
  simp only [logger.Chmod, logger.logf, Sprintf_Chmod, bind, StateT.bind, hc]
  rfl

theorem logger.Chown_some_run {τ : Type} (rt : Runtime) (l : logger τ) (p : String) (uid gid : Int)
    {w w1 : τ}
    {err : Option GoError} {cfs : billy.Change τ}
    (hc : l.underlying.asChange = some cfs)
    (h : cfs.Chown p uid gid w = (err, w1)) :
    l.Chown rt p uid gid w =
      (err,
        (l.log ["Chown(" ++ rt.quote p ++ ", " ++ toString uid ++ ", " ++ toString gid ++ "): "
          ++ fmtError err] w1).2) := by
  simp only [logger.Chown, logger.logf, Sprintf_Chown, bind, StateT.bind, hc, h]
  rfl

theorem logger.Chown_none_run {τ : Type} (rt : Runtime) (l : logger τ) (p : String) (uid gid : Int)
    (w : τ)
    (hc : l.underlying.asChange = none) :
    l.Chown rt p uid gid w =
      (some billy.ErrNotSupported,
        (l.log ["Chown(" ++ rt.quote p ++ ", " ++ toString uid ++ ", " ++ toString gid ++ "): "
          ++ fmtError (some billy.ErrNotSupported)] w).2) := by
  simp only [logger.Chown, logger.logf, Sprintf_Chown, bind, StateT.bind, hc]
  rfl

theorem logger.Lchown_some_run {τ : Type} (rt : Runtime) (l : logger τ) (p : String)
    (uid gid : Int) {w w1 : τ}
    {err : Option GoError} {cfs : billy.Change τ}
    (hc : l.underlying.asChange = some cfs)
    (h : cfs.Lchown p uid gid w = (err, w1)) :
    l.Lchown rt p uid gid w =
      (err,
        (l.log ["Lchown(" ++ rt.quote p ++ ", " ++ toString uid ++ ", " ++ toString gid
          ++ "): " ++ fmtError err] w1).2) := by
  simp only [logger.Lchown, logger.logf, Sprintf_Lchown, bind, StateT.bind, hc, h]
  rfl

theorem logger.Lchown_none_run {τ : Type} (rt : Runtime) (l : logger τ) (p : String)
    (uid gid : Int) (w : τ)
    (hc : l.underlying.asChange = none) :
    l.Lchown rt p uid gid w =
      (some billy.ErrNotSupported,
        (l.log ["Lchown(" ++ rt.quote p ++ ", " ++ toString uid ++ ", " ++ toString gid
          ++ "): " ++ fmtError (some billy.ErrNotSupported)] w).2) := by
  simp only [logger.Lchown, logger.logf, Sprintf_Lchown, bind, StateT.bind, hc]
  rfl

theorem logger.Chtimes_some_run {τ : Type} (rt : Runtime) (l : logger τ) (p : String)
    (atime mtime : Time) {w w1 : τ}
    {err : Option GoError} {cfs : billy.Change τ}
    (hc : l.underlying.asChange = some cfs)
    (h : cfs.Chtimes p atime mtime w = (err, w1)) :
    l.Chtimes rt p atime mtime w =
      (err,
        (l.log ["Chtimes(" ++ rt.quote p ++ ", " ++ rt.timeString atime ++ ", "
          ++ rt.timeString mtime ++ "): " ++ fmtError err] w1).2) := by
  simp only [logger.Chtimes, logger.logf, Sprintf_Chtimes, bind, StateT.bind, hc, h]
  rfl

theorem logger.Chtimes_none_run {τ : Type} (rt : Runtime) (l : logger τ) (p : String)
    (atime mtime : Time) (w : τ)
    (hc : l.underlying.asChange = none) :
    l.Chtimes rt p atime mtime w =
      (some billy.ErrNotSupported,
        (l.log ["Chtimes(" ++ rt.quote p ++ ", " ++ rt.timeString atime ++ ", "
          ++ rt.timeString mtime ++ "): " ++ fmtError (some billy.ErrNotSupported)] w).2) := by
  simp only [logger.Chtimes, logger.logf, Sprintf_Chtimes, bind, StateT.bind, hc]
  rfl

theorem logger.Chroot_run {τ : Type} (rt : Runtime) (l : logger τ) (p : String) {w w1 : τ}
    {ret : Option FsRef} {err : Option GoError}
    (h : l.underlying.Chroot p w = ((ret, err), w1)) :
    l.Chroot rt p w =
      ((ret, err),
        (l.log ["Chroot(" ++ rt.quote p ++ "): " ++ fmtError err] w1).2) := by
  simp only [logger.Chroot, logger.logf, Sprintf_Chroot, bind, StateT.bind, h]
  rfl

theorem logger.TempFile_run {τ : Type} (rt : Runtime) (l : logger τ) (dir pfx : String) {w w1 : τ}
    {ret : Option File} {err : Option GoError}
    (h : l.underlying.TempFile dir pfx w = ((ret, err), w1)) :
    l.TempFile rt dir pfx w =
      ((ret, err),
        (l.log ["TempFile(" ++ rt.quote dir ++ ", " ++ rt.quote pfx ++ "): "
          ++ fmtError err] w1).2) := by
  simp only [logger.TempFile, logger.logf, Sprintf_TempFile, bind, StateT.bind, h]
  rfl

theorem logger.Root_run {τ : Type} (rt : Runtime) (l : logger τ) {w w1 : τ}
    {ret : String}
    (h : l.underlying.Root w = (ret, w1)) :
    l.Root rt w =
      (ret,
        (l.log ["Root(): " ++ rt.quote ret] w1).2) := by
  simp only [logger.Root, logger.logf, Sprintf_Root, bind, StateT.bind, h]
  rfl

theorem formatEach_of_nil_element (rt : Runtime) (l : List (Option FileInfo)) (h : none ∈ l) :
    formatEach rt l = Outcome.panicked := by
  induction l with
  | nil => cases h
  | cons x rest ih =>
    cases x with
    | none => rfl
    | some fi =>
      have hr : none ∈ rest := by
        rcases List.mem_cons.1 h with h1 | h1
        · cases h1
        · exact h1
      simp only [formatEach, formatFileInfo, ih hr]

theorem formatEach_of_no_nil_element (rt : Runtime) (l : List (Option FileInfo))
    (h : none ∉ l) : ∃ descrs, formatEach rt l = Outcome.returned descrs := by
  induction l with
  | nil => exact ⟨[], rfl⟩
  | cons x rest ih =>
    cases x with
    | none => exact absurd (List.mem_cons_self _ _) h
    | some fi =>
      obtain ⟨ds, hds⟩ := ih (fun hr => h (List.mem_cons_of_mem _ hr))
      exact ⟨_, by simp only [formatEach, formatFileInfo, hds]; rfl⟩

theorem logger.Stat_fail_run {τ : Type} (rt : Runtime) (l : logger τ) (p : String) {w w1 : τ}
    {ret : Option FileInfo} {err : GoError}
    (h : l.underlying.Stat p w = ((ret, some err), w1)) :
    l.Stat rt p w =
      (Outcome.returned (ret, some err),
        (l.log ["Stat(" ++ rt.quote p ++ "): -, " ++ fmtError (some err)] w1).2) := by
  simp only [logger.Stat, logger.logf, Sprintf_Stat_fail, bind, StateT.bind, h]
  rfl

theorem logger.Stat_ok_run {τ : Type} (rt : Runtime) (l : logger τ) (p : String) {w w1 : τ}
    {fi : FileInfo} {descr : String}
    (h : l.underlying.Stat p w = ((some fi, none), w1))
    (hd : formatFileInfo rt (some fi) = Outcome.returned descr) :
    l.Stat rt p w =
      (Outcome.returned (some fi, none),
        (l.log ["Stat(" ++ rt.quote p ++ "): " ++ descr ++ ", " ++ fmtError none] w1).2) := by
  simp only [logger.Stat, logger.logf, Sprintf_Stat_ok, bind, StateT.bind, h, hd]
  rfl

theorem logger.Stat_panic_run {τ : Type} (rt : Runtime) (l : logger τ) (p : String) {w w1 : τ}
    (h : l.underlying.Stat p w = ((none, none), w1)) :
    l.Stat rt p w = (Outcome.panicked, w1) := by
  simp only [logger.Stat, bind, StateT.bind, h]
  rfl

theorem logger.Lstat_fail_run {τ : Type} (rt : Runtime) (l : logger τ) (p : String) {w w1 : τ}
    {ret : Option FileInfo} {err : GoError}
    (h : l.underlying.Lstat p w = ((ret, some err), w1)) :
    l.Lstat rt p w =
      (Outcome.returned (ret, some err),
        (l.log ["Lstat(" ++ rt.quote p ++ "): -, " ++ fmtError (some err)] w1).2) := by
  simp only [logger.Lstat, logger.logf, Sprintf_Lstat_fail, bind, StateT.bind,
    FilesystemVal.asSymlink, h]
  rfl

theorem logger.Lstat_ok_run {τ : Type} (rt : Runtime) (l : logger τ) (p : String) {w w1 : τ}
    {fi : FileInfo} {descr : String}
    (h : l.underlying.Lstat p w = ((some fi, none), w1))
    (hd : formatFileInfo rt (some fi) = Outcome.returned descr) :
    l.Lstat rt p w =
      (Outcome.returned (some fi, none),
        (l.log ["Lstat(" ++ rt.quote p ++ "): " ++ descr ++ ", " ++ fmtError none] w1).2) := by
  simp only [logger.Lstat, logger.logf, Sprintf_Lstat_ok, bind, StateT.bind,
    FilesystemVal.asSymlink, h, hd]
  rfl

theorem logger.Lstat_panic_run {τ : Type} (rt : Runtime) (l : logger τ) (p : String) {w w1 : τ}
    (h : l.underlying.Lstat p w = ((none, none), w1)) :
    l.Lstat rt p w = (Outcome.panicked, w1) := by
  simp only [logger.Lstat, bind, StateT.bind, FilesystemVal.asSymlink, h]
  rfl

theorem logger.ReadDir_fail_run {τ : Type} (rt : Runtime) (l : logger τ) (p : String)
    {w w1 : τ} {ret : Slice (Option FileInfo)} {err : GoError}
    (h : l.underlying.ReadDir p w = ((ret, some err), w1)) :
    l.ReadDir rt p w =
      (Outcome.returned (none, some err),
        (l.log ["ReadDir(" ++ rt.quote p ++ "): -, " ++ fmtError (some err)] w1).2) := by
  simp only [logger.ReadDir, logger.logf, Sprintf_ReadDir_fail, bind, StateT.bind, h]
  rfl

theorem logger.ReadDir_ok_run {τ : Type} (rt : Runtime) (l : logger τ) (p : String)
    {w w1 : τ} {ret : Slice (Option FileInfo)} {descrs : List String}
    (h : l.underlying.ReadDir p w = ((ret, none), w1))
    (hd : formatEach rt ret.elems = Outcome.returned descrs) :
    l.ReadDir rt p w =
      (Outcome.returned (ret, none),
        (l.log ["ReadDir(" ++ rt.quote p ++ "): [" ++ strings.Join descrs ", " ++ "], "
          ++ fmtError none] w1).2) := by
  simp only [logger.ReadDir, logger.logf, Sprintf_ReadDir_ok, bind, StateT.bind, h, hd]
  rfl

theorem logger.ReadDir_panic_run {τ : Type} (rt : Runtime) (l : logger τ) (p : String)
    {w w1 : τ} {ret : Slice (Option FileInfo)}
    (h : l.underlying.ReadDir p w = ((ret, none), w1))
    (hd : formatEach rt ret.elems = Outcome.panicked) :
    l.ReadDir rt p w = (Outcome.panicked, w1) := by
  simp only [logger.ReadDir, bind, StateT.bind, h, hd]
  rfl

/-! ## What `polyfill.New` returns -/

theorem polyfill.New_toBasicVal {τ : Type} (u : FilesystemVal τ) :
    polyfill.New u.toBasicVal = u := rfl

theorem polyfill.New_toBasic {τ : Type} (o : BasicVal τ) :
    (polyfill.New o).toBasic = o.toBasic := by
  unfold polyfill.New BasicVal.asFilesystem
  cases o.asTempFile <;> cases o.asDir <;> cases o.asSymlink <;> cases o.asChroot <;> rfl

theorem polyfill.New_asChange_of_asFilesystem_none {τ : Type} (o : BasicVal τ)
    (h : o.asFilesystem = none) : (polyfill.New o).asChange = none := by
  unfold polyfill.New
  rw [h]

theorem polyfill.New_asChange_cases {τ : Type} (o : BasicVal τ) :
    (polyfill.New o).asChange = none ∨ (polyfill.New o).asChange = o.asChange := by
  unfold polyfill.New BasicVal.asFilesystem
  cases o.asTempFile <;> cases o.asDir <;> cases o.asSymlink <;> cases o.asChroot <;> simp

theorem polyfill.New_asChange_none {τ : Type} (o : BasicVal τ) (h : o.asChange = none) :
    (polyfill.New o).asChange = none := by
  rcases polyfill.New_asChange_cases o with h1 | h1
  · exact h1
  · rw [h1, h]

theorem polyfill.New_Capabilities {τ : Type} (o : BasicVal τ) :
    billy.Capabilities (polyfill.New o).toBasicVal = billy.Capabilities o := by
  unfold polyfill.New BasicVal.asFilesystem
  cases o.asTempFile <;> cases o.asDir <;> cases o.asSymlink <;> cases o.asChroot <;> rfl

theorem polyfill.New_TempFile_some {τ : Type} (o : BasicVal τ) {x : billy.TempFile τ}
    (h : o.asTempFile = some x) : (polyfill.New o).TempFile = x.TempFile := by
  unfold polyfill.New BasicVal.asFilesystem
  rw [h]
  cases o.asDir <;> cases o.asSymlink <;> cases o.asChroot <;> rfl

theorem polyfill.New_TempFile_none {τ : Type} (o : BasicVal τ) (h : o.asTempFile = none)
    (dir pfx : String) :
    (polyfill.New o).TempFile dir pfx = pure (none, some billy.ErrNotSupported) := by
  unfold polyfill.New BasicVal.asFilesystem
  rw [h]

theorem polyfill.New_ReadDir_some {τ : Type} (o : BasicVal τ) {x : billy.Dir τ}
    (h : o.asDir = some x) : (polyfill.New o).ReadDir = x.ReadDir := by
  unfold polyfill.New BasicVal.asFilesystem
  rw [h]
  cases o.asTempFile <;> cases o.asSymlink <;> cases o.asChroot <;> rfl

theorem polyfill.New_ReadDir_none {τ : Type} (o : BasicVal τ) (h : o.asDir = none) (p : String) :
    (polyfill.New o).ReadDir p = pure (none, some billy.ErrNotSupported) := by
  unfold polyfill.New BasicVal.asFilesystem
  rw [h]
  cases o.asTempFile <;> cases o.asSymlink <;> cases o.asChroot <;> rfl

theorem polyfill.New_MkdirAll_some {τ : Type} (o : BasicVal τ) {x : billy.Dir τ}
    (h : o.asDir = some x) : (polyfill.New o).MkdirAll = x.MkdirAll := by
  unfold polyfill.New BasicVal.asFilesystem
  rw [h]
  cases o.asTempFile <;> cases o.asSymlink <;> cases o.asChroot <;> rfl

theorem polyfill.New_MkdirAll_none {τ : Type} (o : BasicVal τ) (h : o.asDir = none) (p : String)
    (perm : os.FileMode) :
    (polyfill.New o).MkdirAll p perm = pure (some billy.ErrNotSupported) := by
  unfold polyfill.New BasicVal.asFilesystem
  rw [h]
  cases o.asTempFile <;> cases o.asSymlink <;> cases o.asChroot <;> rfl

theorem polyfill.New_Symlink_some {τ : Type} (o : BasicVal τ) {x : billy.Symlink τ}
    (h : o.asSymlink = some x) : (polyfill.New o).Symlink = x.Symlink := by
  unfold polyfill.New BasicVal.asFilesystem
  rw [h]
  cases o.asTempFile <;> cases o.asDir <;> cases o.asChroot <;> rfl

theorem polyfill.New_Symlink_none {τ : Type} (o : BasicVal τ) (h : o.asSymlink = none)
    (target link : String) :
    (polyfill.New o).Symlink target link = pure (some billy.ErrNotSupported) := by
  unfold polyfill.New BasicVal.asFilesystem
  rw [h]
  cases o.asTempFile <;> cases o.asDir <;> cases o.asChroot <;> rfl

theorem polyfill.New_Readlink_some {τ : Type} (o : BasicVal τ) {x : billy.Symlink τ}
    (h : o.asSymlink = some x) : (polyfill.New o).Readlink = x.Readlink := by
  unfold polyfill.New BasicVal.asFilesystem
  rw [h]
  cases o.asTempFile <;> cases o.asDir <;> cases o.asChroot <;> rfl

theorem polyfill.New_Readlink_none {τ : Type} (o : BasicVal τ) (h : o.asSymlink = none)
    (p : String) :
    (polyfill.New o).Readlink p = pure ("", some billy.ErrNotSupported) := by
  unfold polyfill.New BasicVal.asFilesystem
  rw [h]
  cases o.asTempFile <;> cases o.asDir <;> cases o.asChroot <;> rfl

theorem polyfill.New_Lstat_some {τ : Type} (o : BasicVal τ) {x : billy.Symlink τ}
    (h : o.asSymlink = some x) : (polyfill.New o).Lstat = x.Lstat := by
  unfold polyfill.New BasicVal.asFilesystem
  rw [h]
  cases o.asTempFile <;> cases o.asDir <;> cases o.asChroot <;> rfl

theorem polyfill.New_Lstat_none {τ : Type} (o : BasicVal τ) (h : o.asSymlink = none) (p : String) :
    (polyfill.New o).Lstat p = pure (none, some billy.ErrNotSupported) := by
  unfold polyfill.New BasicVal.asFilesystem
  rw [h]
  cases o.asTempFile <;> cases o.asDir <;> cases o.asChroot <;> rfl

theorem polyfill.New_Chroot_some {τ : Type} (o : BasicVal τ) {x : billy.Chroot τ}
    (h : o.asChroot = some x) : (polyfill.New o).Chroot = x.Chroot := by
  unfold polyfill.New BasicVal.asFilesystem
  rw [h]
  cases o.asTempFile <;> cases o.asDir <;> cases o.asSymlink <;> rfl

theorem polyfill.New_Chroot_none {τ : Type} (o : BasicVal τ) (h : o.asChroot = none) (p : String) :
    (polyfill.New o).Chroot p = pure (none, some billy.ErrNotSupported) := by
  unfold polyfill.New BasicVal.asFilesystem
  rw [h]
  cases o.asTempFile <;> cases o.asDir <;> cases o.asSymlink <;> rfl

theorem polyfill.New_Root_some {τ : Type} (o : BasicVal τ) {x : billy.Chroot τ}
    (h : o.asChroot = some x) : (polyfill.New o).Root = x.Root := by
  unfold polyfill.New BasicVal.asFilesystem
  rw [h]
  cases o.asTempFile <;> cases o.asDir <;> cases o.asSymlink <;> rfl

theorem polyfill.New_Root_none {τ : Type} (o : BasicVal τ) (h : o.asChroot = none) :
    (polyfill.New o).Root = pure "/" := by
  unfold polyfill.New BasicVal.asFilesystem
  rw [h]
  cases o.asTempFile <;> cases o.asDir <;> cases o.asSymlink <;> rfl

/-! ## Observed values -/

theorem sinkCalls_append (xs ys : List Event) :
    sinkCalls (xs ++ ys) = sinkCalls xs ++ sinkCalls ys := by
  induction xs with
  | nil => rfl
  | cons e es ih => cases e <;> simp [sinkCalls, ih]

theorem sinkFree_invoke {σ α : Type} (c : Call) (f : StateM σ α) :
    SinkFree (World.invoke c f) :=
  fun _ => ⟨[Event.call c], rfl, rfl⟩

theorem sinkFree_pure {σ α : Type} (a : α) : SinkFree (pure a : StateM (World σ) α) :=
  fun w => ⟨[], (List.append_nil w.trace).symm, rfl⟩

theorem World.sink_after_invoke {σ : Type} (msg : List String) (s : σ) (t : List Event)
    (e : Event) :
    (World.sink msg { fs := s, trace := t ++ [e] }).2 =
      { fs := s, trace := t ++ [e, Event.sink msg] } := by
  simp [World.sink]

/-! ## The filesystem a logger made by `Wrap` holds, observed -/

theorem traced_asTempFile {σ : Type} (o : BasicVal σ) :
    o.traced.asTempFile = o.asTempFile.map billy.TempFile.traced := rfl

theorem traced_asDir {σ : Type} (o : BasicVal σ) :
    o.traced.asDir = o.asDir.map billy.Dir.traced := rfl

theorem traced_asSymlink {σ : Type} (o : BasicVal σ) :
    o.traced.asSymlink = o.asSymlink.map billy.Symlink.traced := rfl

theorem traced_asChroot {σ : Type} (o : BasicVal σ) :
    o.traced.asChroot = o.asChroot.map billy.Chroot.traced := rfl

theorem traced_asChange {σ : Type} (o : BasicVal σ) :
    o.traced.asChange = o.asChange.map billy.Change.traced := rfl

theorem traced_asCapable {σ : Type} (o : BasicVal σ) :
    o.traced.asCapable = o.asCapable.map billy.Capable.traced := rfl

theorem polyfill_traced_Create {σ : Type} (o : BasicVal σ) (p : String) :
    (polyfill.New o.traced).Create p = World.invoke (Call.Create p) (o.Create p) :=
  congrFun (congrArg billy.Basic.Create (polyfill.New_toBasic o.traced)) p

theorem polyfill_traced_Open {σ : Type} (o : BasicVal σ) (p : String) :
    (polyfill.New o.traced).Open p = World.invoke (Call.Open p) (o.Open p) :=
  congrFun (congrArg billy.Basic.Open (polyfill.New_toBasic o.traced)) p

theorem polyfill_traced_OpenFile {σ : Type} (o : BasicVal σ) (p : String) (flag : Int)
    (mode : os.FileMode) :
    (polyfill.New o.traced).OpenFile p flag mode = World.invoke (Call.OpenFile p flag mode)
        (o.OpenFile p flag mode) := by
  rw [show (polyfill.New o.traced).OpenFile = o.traced.OpenFile from
    congrArg billy.Basic.OpenFile (polyfill.New_toBasic o.traced)]
  rfl

theorem polyfill_traced_Stat {σ : Type} (o : BasicVal σ) (p : String) :
    (polyfill.New o.traced).Stat p = World.invoke (Call.Stat p) (o.Stat p) :=
  congrFun (congrArg billy.Basic.Stat (polyfill.New_toBasic o.traced)) p

theorem polyfill_traced_Rename {σ : Type} (o : BasicVal σ) (frm dst : String) :
    (polyfill.New o.traced).Rename frm dst = World.invoke (Call.Rename frm dst) (o.Rename frm dst)
        := by
  rw [show (polyfill.New o.traced).Rename = o.traced.Rename from
    congrArg billy.Basic.Rename (polyfill.New_toBasic o.traced)]
  rfl

theorem polyfill_traced_Remove {σ : Type} (o : BasicVal σ) (p : String) :
    (polyfill.New o.traced).Remove p = World.invoke (Call.Remove p) (o.Remove p) :=
  congrFun (congrArg billy.Basic.Remove (polyfill.New_toBasic o.traced)) p

theorem polyfill_traced_Join {σ : Type} (o : BasicVal σ) (elem : List String) :
    (polyfill.New o.traced).Join elem = World.invoke (Call.Join elem) (o.Join elem) :=
  congrFun (congrArg billy.Basic.Join (polyfill.New_toBasic o.traced)) elem

theorem polyfill_traced_TempFile_some {σ : Type} (o : BasicVal σ) {x : billy.TempFile σ}
    (h : o.asTempFile = some x) (dir pfx : String) :
    (polyfill.New o.traced).TempFile dir pfx = World.invoke (Call.TempFile dir pfx)
        (x.TempFile dir pfx) := by
  rw [polyfill.New_TempFile_some o.traced (x := x.traced) (by rw [traced_asTempFile, h]; rfl)]
  rfl

theorem polyfill_traced_TempFile_none {σ : Type} (o : BasicVal σ) (h : o.asTempFile = none)
    (dir pfx : String)
    (w : World σ) :
    (polyfill.New o.traced).TempFile dir pfx w = ((none, some billy.ErrNotSupported), w) := by
  rw [polyfill.New_TempFile_none o.traced (by rw [traced_asTempFile, h]; rfl)]
  rfl

theorem polyfill_traced_ReadDir_some {σ : Type} (o : BasicVal σ) {x : billy.Dir σ}
    (h : o.asDir = some x) (p : String) :
    (polyfill.New o.traced).ReadDir p = World.invoke (Call.ReadDir p) (x.ReadDir p) := by
  rw [polyfill.New_ReadDir_some o.traced (x := x.traced) (by rw [traced_asDir, h]; rfl)]
  rfl

theorem polyfill_traced_ReadDir_none {σ : Type} (o : BasicVal σ) (h : o.asDir = none) (p : String)
    (w : World σ) :
    (polyfill.New o.traced).ReadDir p w = ((none, some billy.ErrNotSupported), w) := by
  rw [polyfill.New_ReadDir_none o.traced (by rw [traced_asDir, h]; rfl)]
  rfl

theorem polyfill_traced_MkdirAll_some {σ : Type} (o : BasicVal σ) {x : billy.Dir σ}
    (h : o.asDir = some x) (p : String) (perm : os.FileMode) :
    (polyfill.New o.traced).MkdirAll p perm = World.invoke (Call.MkdirAll p perm)
        (x.MkdirAll p perm) := by
  rw [polyfill.New_MkdirAll_some o.traced (x := x.traced) (by rw [traced_asDir, h]; rfl)]
  rfl

theorem polyfill_traced_MkdirAll_none {σ : Type} (o : BasicVal σ) (h : o.asDir = none) (p : String)
    (perm : os.FileMode)
    (w : World σ) :
    (polyfill.New o.traced).MkdirAll p perm w = ((some billy.ErrNotSupported), w) := by
  rw [polyfill.New_MkdirAll_none o.traced (by rw [traced_asDir, h]; rfl)]
  rfl

theorem polyfill_traced_Symlink_some {σ : Type} (o : BasicVal σ) {x : billy.Symlink σ}
    (h : o.asSymlink = some x) (target link : String) :
    (polyfill.New o.traced).Symlink target link = World.invoke (Call.Symlink target link)
        (x.Symlink target link) := by
  rw [polyfill.New_Symlink_some o.traced (x := x.traced) (by rw [traced_asSymlink, h]; rfl)]
  rfl

theorem polyfill_traced_Symlink_none {σ : Type} (o : BasicVal σ) (h : o.asSymlink = none)
    (target link : String)
    (w : World σ) :
    (polyfill.New o.traced).Symlink target link w = ((some billy.ErrNotSupported), w) := by
  rw [polyfill.New_Symlink_none o.traced (by rw [traced_asSymlink, h]; rfl)]
  rfl

theorem polyfill_traced_Readlink_some {σ : Type} (o : BasicVal σ) {x : billy.Symlink σ}
    (h : o.asSymlink = some x) (p : String) :
    (polyfill.New o.traced).Readlink p = World.invoke (Call.Readlink p) (x.Readlink p) := by
  rw [polyfill.New_Readlink_some o.traced (x := x.traced) (by rw [traced_asSymlink, h]; rfl)]
  rfl

theorem polyfill_traced_Readlink_none {σ : Type} (o : BasicVal σ) (h : o.asSymlink = none)
    (p : String)
    (w : World σ) :
    (polyfill.New o.traced).Readlink p w = (("", some billy.ErrNotSupported), w) := by
  rw [polyfill.New_Readlink_none o.traced (by rw [traced_asSymlink, h]; rfl)]
  rfl

theorem polyfill_traced_Lstat_some {σ : Type} (o : BasicVal σ) {x : billy.Symlink σ}
    (h : o.asSymlink = some x) (p : String) :
    (polyfill.New o.traced).Lstat p = World.invoke (Call.Lstat p) (x.Lstat p) := by
  rw [polyfill.New_Lstat_some o.traced (x := x.traced) (by rw [traced_asSymlink, h]; rfl)]
  rfl

theorem polyfill_traced_Lstat_none {σ : Type} (o : BasicVal σ) (h : o.asSymlink = none) (p : String)
    (w : World σ) :
    (polyfill.New o.traced).Lstat p w = ((none, some billy.ErrNotSupported), w) := by
  rw [polyfill.New_Lstat_none o.traced (by rw [traced_asSymlink, h]; rfl)]
  rfl

theorem polyfill_traced_Chroot_some {σ : Type} (o : BasicVal σ) {x : billy.Chroot σ}
    (h : o.asChroot = some x) (p : String) :
    (polyfill.New o.traced).Chroot p = World.invoke (Call.Chroot p) (x.Chroot p) := by
  rw [polyfill.New_Chroot_some o.traced (x := x.traced) (by rw [traced_asChroot, h]; rfl)]
  rfl

theorem polyfill_traced_Chroot_none {σ : Type} (o : BasicVal σ) (h : o.asChroot = none) (p : String)
    (w : World σ) :
    (polyfill.New o.traced).Chroot p w = ((none, some billy.ErrNotSupported), w) := by
  rw [polyfill.New_Chroot_none o.traced (by rw [traced_asChroot, h]; rfl)]
  rfl

theorem polyfill_traced_Root_some {σ : Type} (o : BasicVal σ) {x : billy.Chroot σ}
    (h : o.asChroot = some x) :
    (polyfill.New o.traced).Root = World.invoke (Call.Root) (x.Root) := by
  rw [polyfill.New_Root_some o.traced (x := x.traced) (by rw [traced_asChroot, h]; rfl)]
  rfl

theorem polyfill_traced_Root_none {σ : Type} (o : BasicVal σ) (h : o.asChroot = none)
    (w : World σ) :
    (polyfill.New o.traced).Root w = ("/", w) := by
  rw [polyfill.New_Root_none o.traced (by rw [traced_asChroot, h]; rfl)]
  rfl

theorem sinkFree_Create {σ : Type} (o : BasicVal σ) (p : String) :
    SinkFree ((polyfill.New o.traced).Create p) := by
  rw [polyfill_traced_Create]
  exact sinkFree_invoke _ _

theorem sinkFree_Open {σ : Type} (o : BasicVal σ) (p : String) :
    SinkFree ((polyfill.New o.traced).Open p) := by
  rw [polyfill_traced_Open]
  exact sinkFree_invoke _ _

theorem sinkFree_OpenFile {σ : Type} (o : BasicVal σ) (p : String) (flag : Int)
    (mode : os.FileMode) :
    SinkFree ((polyfill.New o.traced).OpenFile p flag mode) := by
  rw [polyfill_traced_OpenFile]
  exact sinkFree_invoke _ _

theorem sinkFree_Stat {σ : Type} (o : BasicVal σ) (p : String) :
    SinkFree ((polyfill.New o.traced).Stat p) := by
  rw [polyfill_traced_Stat]
  exact sinkFree_invoke _ _

theorem sinkFree_Rename {σ : Type} (o : BasicVal σ) (frm dst : String) :
    SinkFree ((polyfill.New o.traced).Rename frm dst) := by
  rw [polyfill_traced_Rename]
  exact sinkFree_invoke _ _

theorem sinkFree_Remove {σ : Type} (o : BasicVal σ) (p : String) :
    SinkFree ((polyfill.New o.traced).Remove p) := by
  rw [polyfill_traced_Remove]
  exact sinkFree_invoke _ _

theorem sinkFree_Join {σ : Type} (o : BasicVal σ) (elem : List String) :
    SinkFree ((polyfill.New o.traced).Join elem) := by
  rw [polyfill_traced_Join]
  exact sinkFree_invoke _ _

theorem sinkFree_TempFile {σ : Type} (o : BasicVal σ) (dir pfx : String) :
    SinkFree ((polyfill.New o.traced).TempFile dir pfx) := by
  cases h : o.asTempFile with
  | none =>
    intro w
    rw [polyfill_traced_TempFile_none o h]
    exact ⟨[], (List.append_nil w.trace).symm, rfl⟩
  | some x =>
    rw [polyfill_traced_TempFile_some o h]
    exact sinkFree_invoke _ _

theorem sinkFree_ReadDir {σ : Type} (o : BasicVal σ) (p : String) :
    SinkFree ((polyfill.New o.traced).ReadDir p) := by
  cases h : o.asDir with
  | none =>
    intro w
    rw [polyfill_traced_ReadDir_none o h]
    exact ⟨[], (List.append_nil w.trace).symm, rfl⟩
  | some x =>
    rw [polyfill_traced_ReadDir_some o h]
    exact sinkFree_invoke _ _

theorem sinkFree_MkdirAll {σ : Type} (o : BasicVal σ) (p : String) (perm : os.FileMode) :
    SinkFree ((polyfill.New o.traced).MkdirAll p perm) := by
  cases h : o.asDir with
  | none =>
    intro w
    rw [polyfill_traced_MkdirAll_none o h]
    exact ⟨[], (List.append_nil w.trace).symm, rfl⟩
  | some x =>
    rw [polyfill_traced_MkdirAll_some o h]
    exact sinkFree_invoke _ _

theorem sinkFree_Symlink {σ : Type} (o : BasicVal σ) (target link : String) :
    SinkFree ((polyfill.New o.traced).Symlink target link) := by
  cases h : o.asSymlink with
  | none =>
    intro w
    rw [polyfill_traced_Symlink_none o h]
    exact ⟨[], (List.append_nil w.trace).symm, rfl⟩
  | some x =>
    rw [polyfill_traced_Symlink_some o h]
    exact sinkFree_invoke _ _

theorem sinkFree_Readlink {σ : Type} (o : BasicVal σ) (p : String) :
    SinkFree ((polyfill.New o.traced).Readlink p) := by
  cases h : o.asSymlink with
  | none =>
    intro w
    rw [polyfill_traced_Readlink_none o h]
    exact ⟨[], (List.append_nil w.trace).symm, rfl⟩
  | some x =>
    rw [polyfill_traced_Readlink_some o h]
    exact sinkFree_invoke _ _

theorem sinkFree_Lstat {σ : Type} (o : BasicVal σ) (p : String) :
    SinkFree ((polyfill.New o.traced).Lstat p) := by
  cases h : o.asSymlink with
  | none =>
    intro w
    rw [polyfill_traced_Lstat_none o h]
    exact ⟨[], (List.append_nil w.trace).symm, rfl⟩
  | some x =>
    rw [polyfill_traced_Lstat_some o h]
    exact sinkFree_invoke _ _

theorem sinkFree_Chroot {σ : Type} (o : BasicVal σ) (p : String) :
    SinkFree ((polyfill.New o.traced).Chroot p) := by
  cases h : o.asChroot with
  | none =>
    intro w
    rw [polyfill_traced_Chroot_none o h]
    exact ⟨[], (List.append_nil w.trace).symm, rfl⟩
  | some x =>
    rw [polyfill_traced_Chroot_some o h]
    exact sinkFree_invoke _ _

theorem sinkFree_Root {σ : Type} (o : BasicVal σ) :
    SinkFree ((polyfill.New o.traced).Root) := by
  cases h : o.asChroot with
  | none =>
    intro w
    rw [polyfill_traced_Root_none o h]
    exact ⟨[], (List.append_nil w.trace).symm, rfl⟩
  | some x =>
    rw [polyfill_traced_Root_some o h]
    exact sinkFree_invoke _ _

theorem sinkFree_Capabilities {σ : Type} (o : BasicVal σ) :
    SinkFree (billy.Capabilities (polyfill.New o.traced).toBasicVal) := by
  rw [polyfill.New_Capabilities]
  unfold billy.Capabilities
  rw [traced_asCapable]
  cases o.asCapable
  · exact sinkFree_pure _
  · exact sinkFree_invoke _ _

theorem polyfill_traced_asChange {σ : Type} (o : BasicVal σ) :
    (polyfill.New o.traced).asChange = none ∨
      ∃ c, o.asChange = some c ∧ (polyfill.New o.traced).asChange = some c.traced := by
  rcases polyfill.New_asChange_cases o.traced with h | h
  · exact Or.inl h
  · rw [traced_asChange] at h
    cases hc : o.asChange with
    | none =>
      rw [hc] at h
      exact Or.inl h
    | some c =>
      rw [hc] at h
      exact Or.inr ⟨c, rfl, h⟩

/-! ## Exactly one line per call -/

theorem StartsWith.append {pre a : String} (b : String) (h : StartsWith pre a) :
    StartsWith pre (a ++ b) := by
  unfold StartsWith at *
  rw [String.data_append]
  exact h.trans (List.prefix_append _ _)

theorem Contains.refl (s : String) : Contains s s :=
  List.infix_refl _

theorem Contains.append_left {a s : String} (b : String) (h : Contains a s) :
    Contains (a ++ b) s := by
  unfold Contains at *
  rw [String.data_append]
  exact h.trans (List.prefix_append _ _).isInfix

theorem Contains.append_right (a : String) {b s : String} (h : Contains b s) :
    Contains (a ++ b) s := by
  unfold Contains at *
  rw [String.data_append]
  exact h.trans (List.suffix_append _ _).isInfix

theorem LogsOnce.intro {σ α β : Type} {m : StateM (World σ) α} {under : StateM (World σ) β}
    {w w1 : World σ} {name : String} {args : List String} {line : String} {a : α} {b : β}
    (hfree : SinkFree under) (hunder : under w = (b, w1))
    (hrun : m w = (a, (World.sink [line] w1).2))
    (hname : StartsWith name line) (hargs : ∀ x ∈ args, Contains line x) :
    LogsOnce m w name args := by
  obtain ⟨evs, h1, h2⟩ := hfree w
  rw [hunder] at h1
  refine ⟨evs ++ [Event.sink [line]], line, ?_, ?_, hname, hargs⟩
  · rw [hrun]
    show w1.trace ++ [Event.sink [line]] = _
    rw [h1, List.append_assoc]
  · rw [sinkCalls_append, h2]
    rfl

theorem logsOnce_Capabilities {σ : Type} (rt : Runtime) (o : BasicVal σ) (w : World σ) :
    LogsOnce ((logger.mk (polyfill.New o.traced) World.sink).Capabilities rt) w "Capabilities"
      [] := by
  rcases h : billy.Capabilities (polyfill.New o.traced).toBasicVal w with ⟨ret, w1⟩
  refine LogsOnce.intro (sinkFree_Capabilities o) h (logger.Capabilities_run rt _ h) ?_ ?_
  · repeat apply StartsWith.append
    decide
  · intro a ha
    simp only [List.mem_cons, List.mem_singleton, List.not_mem_nil, or_false] at ha

theorem logsOnce_Join {σ : Type} (rt : Runtime) (o : BasicVal σ) (elem : List String) (w : World σ)
    :
    LogsOnce ((logger.mk (polyfill.New o.traced) World.sink).Join rt elem) w "Join"
      [fmtStrings elem] := by
  rcases h : (polyfill.New o.traced).Join elem w with ⟨ret, w1⟩
  refine LogsOnce.intro (sinkFree_Join o elem) h (logger.Join_run rt _ elem h) ?_ ?_
  · repeat apply StartsWith.append
    decide
  · intro a ha
    simp only [List.mem_cons, List.mem_singleton, List.not_mem_nil, or_false] at ha
    subst ha
    repeat (first
        | exact Contains.refl _
        | exact Contains.append_right _ (Contains.refl _)
        | apply Contains.append_left)

theorem logsOnce_Create {σ : Type} (rt : Runtime) (o : BasicVal σ) (p : String) (w : World σ) :
    LogsOnce ((logger.mk (polyfill.New o.traced) World.sink).Create rt p) w "Create"
      [rt.quote p] := by
  rcases h : (polyfill.New o.traced).Create p w with ⟨⟨ret, err⟩, w1⟩
  refine LogsOnce.intro (sinkFree_Create o p) h (logger.Create_run rt _ p h) ?_ ?_
  · repeat apply StartsWith.append
    decide
  · intro a ha
    simp only [List.mem_cons, List.mem_singleton, List.not_mem_nil, or_false] at ha
    subst ha
    repeat (first
        | exact Contains.refl _
        | exact Contains.append_right _ (Contains.refl _)
        | apply Contains.append_left)

theorem logsOnce_Open {σ : Type} (rt : Runtime) (o : BasicVal σ) (p : String) (w : World σ) :
    LogsOnce ((logger.mk (polyfill.New o.traced) World.sink).Open rt p) w "Open"
      [rt.quote p] := by
  rcases h : (polyfill.New o.traced).Open p w with ⟨⟨ret, err⟩, w1⟩
  refine LogsOnce.intro (sinkFree_Open o p) h (logger.Open_run rt _ p h) ?_ ?_
  · repeat apply StartsWith.append
    decide
  · intro a ha
    simp only [List.mem_cons, List.mem_singleton, List.not_mem_nil, or_false] at ha
    subst ha
    repeat (first
        | exact Contains.refl _
        | exact Contains.append_right _ (Contains.refl _)
        | apply Contains.append_left)

theorem logsOnce_OpenFile {σ : Type} (rt : Runtime) (o : BasicVal σ) (p : String) (flag : Int)
    (mode : os.FileMode) (w : World σ) :
    LogsOnce ((logger.mk (polyfill.New o.traced) World.sink).OpenFile rt p flag mode) w "OpenFile"
      [rt.quote p, toString flag, fmtSharpO mode] := by
  rcases h : (polyfill.New o.traced).OpenFile p flag mode w with ⟨⟨ret, err⟩, w1⟩
  refine LogsOnce.intro (sinkFree_OpenFile o p flag mode) h
      (logger.OpenFile_run rt _ p flag mode h) ?_ ?_
  · repeat apply StartsWith.append
    decide
  · intro a ha
    simp only [List.mem_cons, List.mem_singleton, List.not_mem_nil, or_false] at ha
    rcases ha with rfl | rfl | rfl <;>
      repeat (first
          | exact Contains.refl _
          | exact Contains.append_right _ (Contains.refl _)
          | apply Contains.append_left)

theorem logsOnce_Rename {σ : Type} (rt : Runtime) (o : BasicVal σ) (frm dst : String) (w : World σ)
    :
    LogsOnce ((logger.mk (polyfill.New o.traced) World.sink).Rename rt frm dst) w "Rename"
      [rt.quote frm, rt.quote dst] := by
  rcases h : (polyfill.New o.traced).Rename frm dst w with ⟨err, w1⟩
  refine LogsOnce.intro (sinkFree_Rename o frm dst) h (logger.Rename_run rt _ frm dst h) ?_ ?_
  · repeat apply StartsWith.append
    decide
  · intro a ha
    simp only [List.mem_cons, List.mem_singleton, List.not_mem_nil, or_false] at ha
    rcases ha with rfl | rfl <;>
      repeat (first
          | exact Contains.refl _
          | exact Contains.append_right _ (Contains.refl _)
          | apply Contains.append_left)

theorem logsOnce_Remove {σ : Type} (rt : Runtime) (o : BasicVal σ) (p : String) (w : World σ) :
    LogsOnce ((logger.mk (polyfill.New o.traced) World.sink).Remove rt p) w "Remove"
      [rt.quote p] := by
  rcases h : (polyfill.New o.traced).Remove p w with ⟨err, w1⟩
  refine LogsOnce.intro (sinkFree_Remove o p) h (logger.Remove_run rt _ p h) ?_ ?_
  · repeat apply StartsWith.append
    decide
  · intro a ha
    simp only [List.mem_cons, List.mem_singleton, List.not_mem_nil, or_false] at ha
    subst ha
    repeat (first
        | exact Contains.refl _
        | exact Contains.append_right _ (Contains.refl _)
        | apply Contains.append_left)

theorem logsOnce_MkdirAll {σ : Type} (rt : Runtime) (o : BasicVal σ) (p : String)
    (perm : os.FileMode) (w : World σ) :
    LogsOnce ((logger.mk (polyfill.New o.traced) World.sink).MkdirAll rt p perm) w "MkdirAll"
      [rt.quote p, fmtSharpO perm] := by
  rcases h : (polyfill.New o.traced).MkdirAll p perm w with ⟨err, w1⟩
  refine LogsOnce.intro (sinkFree_MkdirAll o p perm) h (logger.MkdirAll_run rt _ p perm h) ?_ ?_
  · repeat apply StartsWith.append
    decide
  · intro a ha
    simp only [List.mem_cons, List.mem_singleton, List.not_mem_nil, or_false] at ha
    rcases ha with rfl | rfl <;>
      repeat (first
          | exact Contains.refl _
          | exact Contains.append_right _ (Contains.refl _)
          | apply Contains.append_left)

theorem logsOnce_Symlink {σ : Type} (rt : Runtime) (o : BasicVal σ) (target link : String)
    (w : World σ) :
    LogsOnce ((logger.mk (polyfill.New o.traced) World.sink).Symlink rt target link) w "Symlink"
      [rt.quote target, rt.quote link] := by
  rcases h : (polyfill.New o.traced).Symlink target link w with ⟨err, w1⟩
  refine LogsOnce.intro (sinkFree_Symlink o target link) h (logger.Symlink_run rt _ target link h)
      ?_ ?_
  · repeat apply StartsWith.append
    decide
  · intro a ha
    simp only [List.mem_cons, List.mem_singleton, List.not_mem_nil, or_false] at ha
    rcases ha with rfl | rfl <;>
      repeat (first
          | exact Contains.refl _
          | exact Contains.append_right _ (Contains.refl _)
          | apply Contains.append_left)

theorem logsOnce_Readlink {σ : Type} (rt : Runtime) (o : BasicVal σ) (p : String) (w : World σ) :
    LogsOnce ((logger.mk (polyfill.New o.traced) World.sink).Readlink rt p) w "Readlink"
      [rt.quote p] := by
  rcases h : (polyfill.New o.traced).Readlink p w with ⟨⟨ret, err⟩, w1⟩
  refine LogsOnce.intro (sinkFree_Readlink o p) h (logger.Readlink_run rt _ p h) ?_ ?_
  · repeat apply StartsWith.append
    decide
  · intro a ha
    simp only [List.mem_cons, List.mem_singleton, List.not_mem_nil, or_false] at ha
    subst ha
    repeat (first
        | exact Contains.refl _
        | exact Contains.append_right _ (Contains.refl _)
        | apply Contains.append_left)

theorem logsOnce_Chmod {σ : Type} (rt : Runtime) (o : BasicVal σ) (p : String) (mode : os.FileMode)
    (w : World σ) :
    LogsOnce ((logger.mk (polyfill.New o.traced) World.sink).Chmod rt p mode) w "Chmod"
      [rt.quote p, fmtSharpO mode] := by
  rcases polyfill_traced_asChange o with hc | ⟨c, _, hc⟩
  · refine LogsOnce.intro (sinkFree_pure ()) rfl (logger.Chmod_none_run rt _ p mode w hc) ?_ ?_
    · repeat apply StartsWith.append
      decide
    · intro a ha
      simp only [List.mem_cons, List.mem_singleton, List.not_mem_nil, or_false] at ha
      rcases ha with rfl | rfl <;>
        repeat (first
            | exact Contains.refl _
            | exact Contains.append_right _ (Contains.refl _)
            | apply Contains.append_left)
  · rcases h : c.traced.Chmod p mode w with ⟨err, w1⟩
    refine LogsOnce.intro (sinkFree_invoke (Call.Chmod p mode) (c.Chmod p mode)) h
      (logger.Chmod_some_run rt _ p mode hc h) ?_ ?_
    · repeat apply StartsWith.append
      decide
    · intro a ha
      simp only [List.mem_cons, List.mem_singleton, List.not_mem_nil, or_false] at ha
      rcases ha with rfl | rfl <;>
        repeat (first
            | exact Contains.refl _
            | exact Contains.append_right _ (Contains.refl _)
            | apply Contains.append_left)

theorem logsOnce_Chown {σ : Type} (rt : Runtime) (o : BasicVal σ) (p : String) (uid gid : Int)
    (w : World σ) :
    LogsOnce ((logger.mk (polyfill.New o.traced) World.sink).Chown rt p uid gid) w "Chown"
      [rt.quote p, toString uid, toString gid] := by
  rcases polyfill_traced_asChange o with hc | ⟨c, _, hc⟩
  · refine LogsOnce.intro (sinkFree_pure ()) rfl (logger.Chown_none_run rt _ p uid gid w hc) ?_ ?_
    · repeat apply StartsWith.append
      decide
    · intro a ha
      simp only [List.mem_cons, List.mem_singleton, List.not_mem_nil, or_false] at ha
      rcases ha with rfl | rfl | rfl <;>
        repeat (first
            | exact Contains.refl _
            | exact Contains.append_right _ (Contains.refl _)
            | apply Contains.append_left)
  · rcases h : c.traced.Chown p uid gid w with ⟨err, w1⟩
    refine LogsOnce.intro (sinkFree_invoke (Call.Chown p uid gid) (c.Chown p uid gid)) h
      (logger.Chown_some_run rt _ p uid gid hc h) ?_ ?_
    · repeat apply StartsWith.append
      decide
    · intro a ha
      simp only [List.mem_cons, List.mem_singleton, List.not_mem_nil, or_false] at ha
      rcases ha with rfl | rfl | rfl <;>
        repeat (first
            | exact Contains.refl _
            | exact Contains.append_right _ (Contains.refl _)
            | apply Contains.append_left)

theorem logsOnce_Lchown {σ : Type} (rt : Runtime) (o : BasicVal σ) (p : String) (uid gid : Int)
    (w : World σ) :
    LogsOnce ((logger.mk (polyfill.New o.traced) World.sink).Lchown rt p uid gid) w "Lchown"
      [rt.quote p, toString uid, toString gid] := by
  rcases polyfill_traced_asChange o with hc | ⟨c, _, hc⟩
  · refine LogsOnce.intro (sinkFree_pure ()) rfl (logger.Lchown_none_run rt _ p uid gid w hc) ?_ ?_
    · repeat apply StartsWith.append
      decide
    · intro a ha
      simp only [List.mem_cons, List.mem_singleton, List.not_mem_nil, or_false] at ha
      rcases ha with rfl | rfl | rfl <;>
        repeat (first
            | exact Contains.refl _
            | exact Contains.append_right _ (Contains.refl _)
            | apply Contains.append_left)
  · rcases h : c.traced.Lchown p uid gid w with ⟨err, w1⟩
    refine LogsOnce.intro (sinkFree_invoke (Call.Lchown p uid gid) (c.Lchown p uid gid)) h
      (logger.Lchown_some_run rt _ p uid gid hc h) ?_ ?_
    · repeat apply StartsWith.append
      decide
    · intro a ha
      simp only [List.mem_cons, List.mem_singleton, List.not_mem_nil, or_false] at ha
      rcases ha with rfl | rfl | rfl <;>
        repeat (first
            | exact Contains.refl _
            | exact Contains.append_right _ (Contains.refl _)
            | apply Contains.append_left)

theorem logsOnce_Chtimes {σ : Type} (rt : Runtime) (o : BasicVal σ) (p : String)
    (atime mtime : Time) (w : World σ) :
    LogsOnce ((logger.mk (polyfill.New o.traced) World.sink).Chtimes rt p atime mtime) w "Chtimes"
      [rt.quote p, rt.timeString atime, rt.timeString mtime] := by
  rcases polyfill_traced_asChange o with hc | ⟨c, _, hc⟩
  · refine LogsOnce.intro (sinkFree_pure ()) rfl (logger.Chtimes_none_run rt _ p atime mtime w hc)
      ?_ ?_
    · repeat apply StartsWith.append
      decide
    · intro a ha
      simp only [List.mem_cons, List.mem_singleton, List.not_mem_nil, or_false] at ha
      rcases ha with rfl | rfl | rfl <;>
        repeat (first
            | exact Contains.refl _
            | exact Contains.append_right _ (Contains.refl _)
            | apply Contains.append_left)
  · rcases h : c.traced.Chtimes p atime mtime w with ⟨err, w1⟩
    refine LogsOnce.intro (sinkFree_invoke (Call.Chtimes p atime mtime) (c.Chtimes p atime mtime)) h
      (logger.Chtimes_some_run rt _ p atime mtime hc h) ?_ ?_
    · repeat apply StartsWith.append
      decide
    · intro a ha
      simp only [List.mem_cons, List.mem_singleton, List.not_mem_nil, or_false] at ha
      rcases ha with rfl | rfl | rfl <;>
        repeat (first
            | exact Contains.refl _
            | exact Contains.append_right _ (Contains.refl _)
            | apply Contains.append_left)

theorem logsOnce_Chroot {σ : Type} (rt : Runtime) (o : BasicVal σ) (p : String) (w : World σ) :
    LogsOnce ((logger.mk (polyfill.New o.traced) World.sink).Chroot rt p) w "Chroot"
      [rt.quote p] := by
  rcases h : (polyfill.New o.traced).Chroot p w with ⟨⟨ret, err⟩, w1⟩
  refine LogsOnce.intro (sinkFree_Chroot o p) h (logger.Chroot_run rt _ p h) ?_ ?_
  · repeat apply StartsWith.append
    decide
  · intro a ha
    simp only [List.mem_cons, List.mem_singleton, List.not_mem_nil, or_false] at ha
    subst ha
    repeat (first
        | exact Contains.refl _
        | exact Contains.append_right _ (Contains.refl _)
        | apply Contains.append_left)

theorem logsOnce_TempFile {σ : Type} (rt : Runtime) (o : BasicVal σ) (dir pfx : String)
    (w : World σ) :
    LogsOnce ((logger.mk (polyfill.New o.traced) World.sink).TempFile rt dir pfx) w "TempFile"
      [rt.quote dir, rt.quote pfx] := by
  rcases h : (polyfill.New o.traced).TempFile dir pfx w with ⟨⟨ret, err⟩, w1⟩
  refine LogsOnce.intro (sinkFree_TempFile o dir pfx) h (logger.TempFile_run rt _ dir pfx h) ?_ ?_
  · repeat apply StartsWith.append
    decide
  · intro a ha
    simp only [List.mem_cons, List.mem_singleton, List.not_mem_nil, or_false] at ha
    rcases ha with rfl | rfl <;>
      repeat (first
          | exact Contains.refl _
          | exact Contains.append_right _ (Contains.refl _)
          | apply Contains.append_left)

theorem logsOnce_Root {σ : Type} (rt : Runtime) (o : BasicVal σ) (w : World σ) :
    LogsOnce ((logger.mk (polyfill.New o.traced) World.sink).Root rt) w "Root"
      [] := by
  rcases h : (polyfill.New o.traced).Root w with ⟨ret, w1⟩
  refine LogsOnce.intro (sinkFree_Root o) h (logger.Root_run rt _ h) ?_ ?_
  · repeat apply StartsWith.append
    decide
  · intro a ha
    simp only [List.mem_cons, List.mem_singleton, List.not_mem_nil, or_false] at ha

theorem logsOnce_Stat {σ : Type} (rt : Runtime) (o : BasicVal σ) (p : String) (w : World σ)
    (hne : ((polyfill.New o.traced).Stat p w).1 ≠ (none, none)) :
    LogsOnce ((logger.mk (polyfill.New o.traced) World.sink).Stat rt p) w "Stat"
      [rt.quote p] := by
  rcases h : (polyfill.New o.traced).Stat p w with ⟨⟨ret, err⟩, w1⟩
  rw [h] at hne
  cases err with
  | some e =>
    refine LogsOnce.intro (sinkFree_Stat o p) h (logger.Stat_fail_run rt _ p h) ?_ ?_
    · repeat apply StartsWith.append
      decide
    · intro a ha
      simp only [List.mem_cons, List.mem_singleton, List.not_mem_nil, or_false] at ha
      subst ha
      repeat (first
          | exact Contains.refl _
          | exact Contains.append_right _ (Contains.refl _)
          | apply Contains.append_left)
  | none =>
    cases ret with
    | none => exact absurd rfl hne
    | some fi =>
      refine LogsOnce.intro (sinkFree_Stat o p) h (logger.Stat_ok_run rt _ p h rfl) ?_ ?_
      · repeat apply StartsWith.append
        decide
      · intro a ha
        simp only [List.mem_cons, List.mem_singleton, List.not_mem_nil, or_false] at ha
        subst ha
        repeat (first
            | exact Contains.refl _
            | exact Contains.append_right _ (Contains.refl _)
            | apply Contains.append_left)

theorem panics_Stat {σ : Type} (rt : Runtime) (o : BasicVal σ) (p : String) (w : World σ)
    (hnil : ((polyfill.New o.traced).Stat p w).1 = (none, none)) :
    ((logger.mk (polyfill.New o.traced) World.sink).Stat rt p w).1 = Outcome.panicked ∧
    sinkCalls ((logger.mk (polyfill.New o.traced) World.sink).Stat rt p w).2.trace =
      sinkCalls w.trace := by
  rcases h : (polyfill.New o.traced).Stat p w with ⟨⟨ret, err⟩, w1⟩
  rw [h] at hnil
  cases hnil
  obtain ⟨evs, h1, h2⟩ := sinkFree_Stat o p w
  rw [h] at h1
  rw [logger.Stat_panic_run rt _ p h]
  refine ⟨rfl, ?_⟩
  show sinkCalls w1.trace = _
  rw [h1, sinkCalls_append, h2, List.append_nil]

theorem logsOnce_Lstat {σ : Type} (rt : Runtime) (o : BasicVal σ) (p : String) (w : World σ)
    (hne : ((polyfill.New o.traced).Lstat p w).1 ≠ (none, none)) :
    LogsOnce ((logger.mk (polyfill.New o.traced) World.sink).Lstat rt p) w "Lstat"
      [rt.quote p] := by
  rcases h : (polyfill.New o.traced).Lstat p w with ⟨⟨ret, err⟩, w1⟩
  rw [h] at hne
  cases err with
  | some e =>
    refine LogsOnce.intro (sinkFree_Lstat o p) h (logger.Lstat_fail_run rt _ p h) ?_ ?_
    · repeat apply StartsWith.append
      decide
    · intro a ha
      simp only [List.mem_cons, List.mem_singleton, List.not_mem_nil, or_false] at ha
      subst ha
      repeat (first
          | exact Contains.refl _
          | exact Contains.append_right _ (Contains.refl _)
          | apply Contains.append_left)
  | none =>
    cases ret with
    | none => exact absurd rfl hne
    | some fi =>
      refine LogsOnce.intro (sinkFree_Lstat o p) h (logger.Lstat_ok_run rt _ p h rfl) ?_ ?_
      · repeat apply StartsWith.append
        decide
      · intro a ha
        simp only [List.mem_cons, List.mem_singleton, List.not_mem_nil, or_false] at ha
        subst ha
        repeat (first
            | exact Contains.refl _
            | exact Contains.append_right _ (Contains.refl _)
            | apply Contains.append_left)

theorem panics_Lstat {σ : Type} (rt : Runtime) (o : BasicVal σ) (p : String) (w : World σ)
    (hnil : ((polyfill.New o.traced).Lstat p w).1 = (none, none)) :
    ((logger.mk (polyfill.New o.traced) World.sink).Lstat rt p w).1 = Outcome.panicked ∧
    sinkCalls ((logger.mk (polyfill.New o.traced) World.sink).Lstat rt p w).2.trace =
      sinkCalls w.trace := by
  rcases h : (polyfill.New o.traced).Lstat p w with ⟨⟨ret, err⟩, w1⟩
  rw [h] at hnil
  cases hnil
  obtain ⟨evs, h1, h2⟩ := sinkFree_Lstat o p w
  rw [h] at h1
  rw [logger.Lstat_panic_run rt _ p h]
  refine ⟨rfl, ?_⟩
  show sinkCalls w1.trace = _
  rw [h1, sinkCalls_append, h2, List.append_nil]

theorem logsOnce_ReadDir {σ : Type} (rt : Runtime) (o : BasicVal σ) (p : String)
    (w : World σ)
    (hok : ((polyfill.New o.traced).ReadDir p w).1.2 ≠ none ∨
      none ∉ ((polyfill.New o.traced).ReadDir p w).1.1.elems) :
    LogsOnce ((logger.mk (polyfill.New o.traced) World.sink).ReadDir rt p) w "ReadDir"
      [rt.quote p] := by
  rcases h : (polyfill.New o.traced).ReadDir p w with ⟨⟨ret, err⟩, w1⟩
  rw [h] at hok
  cases err with
  | some e =>
    refine LogsOnce.intro (sinkFree_ReadDir o p) h (logger.ReadDir_fail_run rt _ p h) ?_ ?_
    · repeat apply StartsWith.append
      decide
    · intro a ha
      simp only [List.mem_cons, List.mem_singleton, List.not_mem_nil, or_false] at ha
      subst ha
      repeat (first
          | exact Contains.refl _
          | exact Contains.append_right _ (Contains.refl _)
          | apply Contains.append_left)
  | none =>
    have hno : none ∉ ret.elems := by
      rcases hok with h1 | h1
      · exact absurd rfl h1
      · exact h1
    obtain ⟨descrs, hd⟩ := formatEach_of_no_nil_element rt ret.elems hno
    refine LogsOnce.intro (sinkFree_ReadDir o p) h (logger.ReadDir_ok_run rt _ p h hd) ?_ ?_
    · repeat apply StartsWith.append
      decide
    · intro a ha
      simp only [List.mem_cons, List.mem_singleton, List.not_mem_nil, or_false] at ha
      subst ha
      repeat (first
          | exact Contains.refl _
          | exact Contains.append_right _ (Contains.refl _)
          | apply Contains.append_left)

theorem panics_ReadDir {σ : Type} (rt : Runtime) (o : BasicVal σ) (p : String) (w : World σ)
    (herr : ((polyfill.New o.traced).ReadDir p w).1.2 = none)
    (hnil : none ∈ ((polyfill.New o.traced).ReadDir p w).1.1.elems) :
    ((logger.mk (polyfill.New o.traced) World.sink).ReadDir rt p w).1 = Outcome.panicked ∧
    sinkCalls ((logger.mk (polyfill.New o.traced) World.sink).ReadDir rt p w).2.trace =
      sinkCalls w.trace := by
  rcases h : (polyfill.New o.traced).ReadDir p w with ⟨⟨ret, err⟩, w1⟩
  rw [h] at herr hnil
  cases herr
  obtain ⟨evs, h1, h2⟩ := sinkFree_ReadDir o p w
  rw [h] at h1
  rw [logger.ReadDir_panic_run rt _ p h (formatEach_of_nil_element rt _ hnil)]
  refine ⟨rfl, ?_⟩
  show sinkCalls w1.trace = _
  rw [h1, sinkCalls_append, h2, List.append_nil]

/-! ## The contract of the logger -/

/-- C1, as the code has it: each of the forwarding operations Capabilities,
Join, Create, Open, OpenFile, Rename, Remove, MkdirAll, TempFile and Root
returns exactly the value and error that the operation of the wrapped
filesystem returned when run in the caller's world, whatever the wrapped
filesystem and the sink do.  So does Stat, unless the wrapped Stat returns a
nil file info together with a nil error: on that result Stat panics and
returns nothing. -/
theorem C1_forwarding_returns_underlying_result {τ : Type} (rt : Runtime) (l : logger τ) (w : τ) :
    (l.Capabilities rt w).1 = (billy.Capabilities l.underlying.toBasicVal w).1 ∧
    (∀ elem, (l.Join rt elem w).1 = (l.underlying.Join elem w).1) ∧
    (∀ p, (l.Create rt p w).1 = (l.underlying.Create p w).1) ∧
    (∀ p, (l.Open rt p w).1 = (l.underlying.Open p w).1) ∧
    (∀ p flag mode, (l.OpenFile rt p flag mode w).1 = (l.underlying.OpenFile p flag mode w).1) ∧
    (∀ p, (l.Stat rt p w).1 =
      if (l.underlying.Stat p w).1 = (none, none) then Outcome.panicked
      else Outcome.returned (l.underlying.Stat p w).1) ∧
    (∀ frm dst, (l.Rename rt frm dst w).1 = (l.underlying.Rename frm dst w).1) ∧
    (∀ p, (l.Remove rt p w).1 = (l.underlying.Remove p w).1) ∧
    (∀ p perm, (l.MkdirAll rt p perm w).1 = (l.underlying.MkdirAll p perm w).1) ∧
    (∀ dir pfx, (l.TempFile rt dir pfx w).1 = (l.underlying.TempFile dir pfx w).1) ∧
    (l.Root rt w).1 = (l.underlying.Root w).1 := by
  refine ⟨rfl, fun _ => rfl, fun _ => rfl, fun _ => rfl, fun _ _ _ => rfl, ?_, fun _ _ => rfl,
    fun _ => rfl, fun _ _ => rfl, fun _ _ => rfl, rfl⟩
  intro p
  rcases h : l.underlying.Stat p w with ⟨⟨ret, err⟩, w1⟩
  cases err with
  | some e =>
    rw [logger.Stat_fail_run rt l p h]
    simp
  | none =>
    cases ret with
    | none =>
      rw [logger.Stat_panic_run rt l p h]
      simp
    | some fi =>
      rw [logger.Stat_ok_run rt l p h rfl]
      simp

/-- C1 fails as stated: the example value `demoHollow` returns from `Stat` a nil
file info and a nil error; `Stat` of the logger around it panics while it
formats the file info, and returns no pair at all. -/
theorem C1_Stat_panics_on_nil_info :
    ((demoLogger demoHollow).underlying.Stat "a.txt" demoWorld).1 = (none, none) ∧
    ((demoLogger demoHollow).Stat demoRuntime "a.txt" demoWorld).1 = Outcome.panicked ∧
    ((demoLogger demoHollow).Stat demoRuntime "a.txt" demoWorld).1 ≠
      Outcome.returned ((demoLogger demoHollow).underlying.Stat "a.txt" demoWorld).1 := by
  refine ⟨by rfl, by rfl, by decide⟩

/-- C2, as the code has it: when the wrapped `ReadDir` returns a nil error, the
logger returns the same entries and a nil error (a nil element among the
entries makes it panic while it formats them); when the wrapped `ReadDir`
returns an error, the logger returns that error and a nil slice, whatever
entries came with the error. -/
theorem C2_ReadDir_result {τ : Type} (rt : Runtime) (l : logger τ) (p : String) (w : τ) :
    (l.ReadDir rt p w).1 =
      match (l.underlying.ReadDir p w).1 with
      | (entries, none) =>
        if none ∈ entries.elems then Outcome.panicked else Outcome.returned (entries, none)
      | (_, some err) => Outcome.returned (none, some err) := by
  rcases h : l.underlying.ReadDir p w with ⟨⟨ret, err⟩, w1⟩
  cases err with
  | none =>
    by_cases hnil : none ∈ ret.elems
    · rw [logger.ReadDir_panic_run rt l p h (formatEach_of_nil_element rt _ hnil)]
      simp [hnil]
    · obtain ⟨descrs, hd⟩ := formatEach_of_no_nil_element rt _ hnil
      rw [logger.ReadDir_ok_run rt l p h hd]
      simp [hnil]
  | some e => rw [logger.ReadDir_fail_run rt l p h]

/-- C2 fails as stated: reading the directory `broken` of the example
filesystem gives one entry together with an error, and the logger returns the
error with a nil slice. -/
theorem C2_ReadDir_drops_entries_on_error :
    ((demoLogger demoFilesystem).underlying.ReadDir "broken" demoWorld).1 =
      (some [some (FileInfo.mk "a.txt" 420 false)],
        some (GoError.other "input/output error")) ∧
    ((demoLogger demoFilesystem).ReadDir demoRuntime "broken" demoWorld).1 =
      Outcome.returned (none, some (GoError.other "input/output error")) ∧
    ((demoLogger demoFilesystem).ReadDir demoRuntime "broken" demoWorld).1 ≠
      Outcome.returned ((demoLogger demoFilesystem).underlying.ReadDir "broken" demoWorld).1 := by
  refine ⟨by rfl, by rfl, by decide⟩

/-- C3, as the code has it: for a logger made by `Wrap` around any value, with
the observed sink, a call of a method adds exactly one sink invocation to the
trace; its operand is a single string that starts with the name of the
operation and in which the rendering of each operand of the call occurs.  The
exceptions are `Stat` and `Lstat` when the filesystem the logger holds returns
a nil file info with a nil error, and `ReadDir` when it returns, with a nil
error, a listing with a nil element: the call then panics and the sink is not
invoked.  `Wrap` itself leaves the world as it is, so it invokes the sink zero
times. -/
theorem C3_one_line_per_call {σ : Type} (rt : Runtime) (o : BasicVal σ) (w0 w : World σ) :
    let l := (Wrap o.traced World.sink w0).1
    (Wrap o.traced World.sink w0).2 = w0 ∧
    LogsOnce (l.Capabilities rt) w "Capabilities" [] ∧
    (∀ elem, LogsOnce (l.Join rt elem) w "Join" [fmtStrings elem]) ∧
    (∀ p, LogsOnce (l.Create rt p) w "Create" [rt.quote p]) ∧
    (∀ p, LogsOnce (l.Open rt p) w "Open" [rt.quote p]) ∧
    (∀ p flag mode, LogsOnce (l.OpenFile rt p flag mode) w "OpenFile"
      [rt.quote p, toString flag, fmtSharpO mode]) ∧
    (∀ p, (l.underlying.Stat p w).1 ≠ (none, none) →
      LogsOnce (l.Stat rt p) w "Stat" [rt.quote p]) ∧
    (∀ p, (l.underlying.Stat p w).1 = (none, none) →
      (l.Stat rt p w).1 = Outcome.panicked ∧
      sinkCalls (l.Stat rt p w).2.trace = sinkCalls w.trace) ∧
    (∀ frm dst, LogsOnce (l.Rename rt frm dst) w "Rename" [rt.quote frm, rt.quote dst]) ∧
    (∀ p, LogsOnce (l.Remove rt p) w "Remove" [rt.quote p]) ∧
    (∀ p, ((l.underlying.ReadDir p w).1.2 ≠ none ∨ none ∉ (l.underlying.ReadDir p w).1.1.elems) →
      LogsOnce (l.ReadDir rt p) w "ReadDir" [rt.quote p]) ∧
    (∀ p, (l.underlying.ReadDir p w).1.2 = none → none ∈ (l.underlying.ReadDir p w).1.1.elems →
      (l.ReadDir rt p w).1 = Outcome.panicked ∧
      sinkCalls (l.ReadDir rt p w).2.trace = sinkCalls w.trace) ∧
    (∀ p perm, LogsOnce (l.MkdirAll rt p perm) w "MkdirAll" [rt.quote p, fmtSharpO perm]) ∧
    (∀ target link, LogsOnce (l.Symlink rt target link) w "Symlink"
      [rt.quote target, rt.quote link]) ∧
    (∀ p, LogsOnce (l.Readlink rt p) w "Readlink" [rt.quote p]) ∧
    (∀ p, (l.underlying.Lstat p w).1 ≠ (none, none) →
      LogsOnce (l.Lstat rt p) w "Lstat" [rt.quote p]) ∧
    (∀ p, (l.underlying.Lstat p w).1 = (none, none) →
      (l.Lstat rt p w).1 = Outcome.panicked ∧
      sinkCalls (l.Lstat rt p w).2.trace = sinkCalls w.trace) ∧
    (∀ p mode, LogsOnce (l.Chmod rt p mode) w "Chmod" [rt.quote p, fmtSharpO mode]) ∧
    (∀ p uid gid, LogsOnce (l.Chown rt p uid gid) w "Chown"
      [rt.quote p, toString uid, toString gid]) ∧
    (∀ p uid gid, LogsOnce (l.Lchown rt p uid gid) w "Lchown"
      [rt.quote p, toString uid, toString gid]) ∧
    (∀ p atime mtime, LogsOnce (l.Chtimes rt p atime mtime) w "Chtimes"
      [rt.quote p, rt.timeString atime, rt.timeString mtime]) ∧
    (∀ p, LogsOnce (l.Chroot rt p) w "Chroot" [rt.quote p]) ∧
    (∀ dir pfx, LogsOnce (l.TempFile rt dir pfx) w "TempFile" [rt.quote dir, rt.quote pfx]) ∧
    LogsOnce (l.Root rt) w "Root" [] := by
  intro l
  exact ⟨rfl, logsOnce_Capabilities rt o w, fun elem => logsOnce_Join rt o elem w,
    fun p => logsOnce_Create rt o p w, fun p => logsOnce_Open rt o p w,
    fun p flag mode => logsOnce_OpenFile rt o p flag mode w,
    fun p h => logsOnce_Stat rt o p w h, fun p h => panics_Stat rt o p w h,
    fun frm dst => logsOnce_Rename rt o frm dst w, fun p => logsOnce_Remove rt o p w,
    fun p h => logsOnce_ReadDir rt o p w h, fun p h1 h2 => panics_ReadDir rt o p w h1 h2,
    fun p perm => logsOnce_MkdirAll rt o p perm w,
    fun target link => logsOnce_Symlink rt o target link w, fun p => logsOnce_Readlink rt o p w,
    fun p h => logsOnce_Lstat rt o p w h, fun p h => panics_Lstat rt o p w h,
    fun p mode => logsOnce_Chmod rt o p mode w,
    fun p uid gid => logsOnce_Chown rt o p uid gid w,
    fun p uid gid => logsOnce_Lchown rt o p uid gid w,
    fun p atime mtime => logsOnce_Chtimes rt o p atime mtime w,
    fun p => logsOnce_Chroot rt o p w, fun dir pfx => logsOnce_TempFile rt o dir pfx w,
    logsOnce_Root rt o w⟩

/-- C3 at the example filesystem: `Stat` of a path it has, and `Stat` of the one
path it does not have, log one line each. -/
theorem C3_one_line_per_call_witness :
    ((demoLogger demoFilesystem).underlying.Stat "a.txt" demoWorld).1 ≠ (none, none) ∧
    LogsOnce ((demoLogger demoFilesystem).Stat demoRuntime "a.txt") demoWorld "Stat"
      ["\"a.txt\""] ∧
    ((demoLogger demoFilesystem).underlying.Stat "missing.txt" demoWorld).1 ≠ (none, none) ∧
    LogsOnce ((demoLogger demoFilesystem).Stat demoRuntime "missing.txt") demoWorld "Stat"
      ["\"missing.txt\""] :=
  ⟨by decide,
    (C3_one_line_per_call demoRuntime demoFilesystem demoWorld demoWorld).2.2.2.2.2.2.1 "a.txt"
      (by decide),
    by decide,
    (C3_one_line_per_call demoRuntime demoFilesystem demoWorld demoWorld).2.2.2.2.2.2.1
      "missing.txt" (by decide)⟩

/-- C3 fails as stated: the example value `demoHollow` returns from `Stat` a nil
file info and a nil error; `Stat` of the logger around it panics before it
reaches the sink, so the only event of the call is the call of the wrapped
`Stat` and the sink is invoked zero times. -/
theorem C3_no_line_on_nil_info :
    ((demoLogger demoHollow).underlying.Stat "a.txt" demoWorld).1 = (none, none) ∧
    (demoLogger demoHollow).Stat demoRuntime "a.txt" demoWorld =
      (Outcome.panicked, { fs := 1, trace := [Event.call (Call.Stat "a.txt")] }) ∧
    sinkCalls ((demoLogger demoHollow).Stat demoRuntime "a.txt" demoWorld).2.trace = [] ∧
    ¬ LogsOnce ((demoLogger demoHollow).Stat demoRuntime "a.txt") demoWorld "Stat"
      ["\"a.txt\""] := by
  refine ⟨by rfl, by rfl, by rfl, ?_⟩
  rintro ⟨evs, line, h1, h2, _⟩
  have ht : ((demoLogger demoHollow).Stat demoRuntime "a.txt" demoWorld).2.trace =
      [Event.call (Call.Stat "a.txt")] := rfl
  rw [ht] at h1
  have he : evs = [Event.call (Call.Stat "a.txt")] := by
    rw [h1]
    rfl
  rw [he] at h2
  cases h2

/-- C4: when the value passed to `Wrap` does not implement `billy.Symlink`,
`Symlink`, `Readlink` and `Lstat` return `billy.ErrNotSupported` (`Readlink`
with the empty string, `Lstat` with no file info); each adds to the trace one
sink invocation and nothing else, with a line made of the name of the
operation, its quoted operands and, at the end, the text of that error. -/
theorem C4_symlink_not_supported {σ : Type} (rt : Runtime) (o : BasicVal σ)
    (h : o.asSymlink = none) (w0 w : World σ) :
    let l := (Wrap o.traced World.sink w0).1
    (∀ target link, l.Symlink rt target link w =
      (some billy.ErrNotSupported,
        { w with trace := w.trace ++ [Event.sink ["Symlink(" ++ rt.quote target ++ ", "
          ++ rt.quote link ++ "): " ++ billy.ErrNotSupported.Error]] })) ∧
    (∀ p, l.Readlink rt p w =
      (("", some billy.ErrNotSupported),
        { w with trace := w.trace ++ [Event.sink ["Readlink(" ++ rt.quote p ++ "): "
          ++ rt.quote "" ++ ", " ++ billy.ErrNotSupported.Error]] })) ∧
    (∀ p, l.Lstat rt p w =
      (Outcome.returned (none, some billy.ErrNotSupported),
        { w with trace := w.trace ++ [Event.sink ["Lstat(" ++ rt.quote p ++ "): -, "
          ++ billy.ErrNotSupported.Error]] })) ∧
    billy.ErrNotSupported.Error = "feature not supported" := by
  intro l
  exact ⟨fun target link =>
      logger.Symlink_run rt _ target link (polyfill_traced_Symlink_none o h target link w),
    fun p => logger.Readlink_run rt _ p (polyfill_traced_Readlink_none o h p w),
    fun p => logger.Lstat_fail_run rt _ p (polyfill_traced_Lstat_none o h p w), rfl⟩

/-- C4 at the example value that implements `billy.Basic` only. -/
theorem C4_symlink_not_supported_witness :
    demoPlain.asSymlink = none ∧
    (demoLogger demoPlain).Lstat demoRuntime "a.txt" demoWorld =
      (Outcome.returned (none, some billy.ErrNotSupported),
        { fs := 0, trace := [Event.sink ["Lstat(\"a.txt\"): -, feature not supported"]] }) :=
  ⟨rfl, (C4_symlink_not_supported demoRuntime demoPlain rfl demoWorld demoWorld).2.2.1 "a.txt"⟩

/-- C5: when the value passed to `Wrap` does not implement `billy.Change`,
`Chmod`, `Chown`, `Lchown` and `Chtimes` return `billy.ErrNotSupported`; the
state of the wrapped filesystem is untouched and the only event of the call is
one sink invocation, with a line made of the name of the operation, its
rendered operands and, at the end, the text of that error. -/
theorem C5_change_not_supported {σ : Type} (rt : Runtime) (o : BasicVal σ)
    (h : o.asChange = none) (w0 w : World σ) :
    let l := (Wrap o.traced World.sink w0).1
    (∀ p mode, l.Chmod rt p mode w =
      (some billy.ErrNotSupported,
        { w with trace := w.trace ++ [Event.sink ["Chmod(" ++ rt.quote p ++ ", "
          ++ fmtSharpO mode ++ "): " ++ billy.ErrNotSupported.Error]] })) ∧
    (∀ p uid gid, l.Chown rt p uid gid w =
      (some billy.ErrNotSupported,
        { w with trace := w.trace ++ [Event.sink ["Chown(" ++ rt.quote p ++ ", "
          ++ toString uid ++ ", " ++ toString gid ++ "): " ++ billy.ErrNotSupported.Error]] })) ∧
    (∀ p uid gid, l.Lchown rt p uid gid w =
      (some billy.ErrNotSupported,
        { w with trace := w.trace ++ [Event.sink ["Lchown(" ++ rt.quote p ++ ", "
          ++ toString uid ++ ", " ++ toString gid ++ "): " ++ billy.ErrNotSupported.Error]] })) ∧
    (∀ p atime mtime, l.Chtimes rt p atime mtime w =
      (some billy.ErrNotSupported,
        { w with trace := w.trace ++ [Event.sink ["Chtimes(" ++ rt.quote p ++ ", "
          ++ rt.timeString atime ++ ", " ++ rt.timeString mtime ++ "): "
          ++ billy.ErrNotSupported.Error]] })) ∧
    billy.ErrNotSupported.Error = "feature not supported" := by
  intro l
  have hc : l.underlying.asChange = none :=
    polyfill.New_asChange_none o.traced (by rw [traced_asChange, h]; rfl)
  exact ⟨fun p mode => logger.Chmod_none_run rt l p mode w hc,
    fun p uid gid => logger.Chown_none_run rt l p uid gid w hc,
    fun p uid gid => logger.Lchown_none_run rt l p uid gid w hc,
    fun p atime mtime => logger.Chtimes_none_run rt l p atime mtime w hc, rfl⟩

/-- C5 at the example value that implements `billy.Filesystem` and not
`billy.Change`. -/
theorem C5_change_not_supported_witness :
    demoFilesystem.asChange = none ∧
    (demoLogger demoFilesystem).Chmod demoRuntime "a.txt" 420 demoWorld =
      (some billy.ErrNotSupported,
        { fs := 0, trace := [Event.sink ["Chmod(\"a.txt\", 0644): feature not supported"]] }) :=
  ⟨rfl, (C5_change_not_supported demoRuntime demoFilesystem rfl demoWorld demoWorld).1 "a.txt" 420⟩

/-- C6: `Chroot` of a logger made by `Wrap` returns exactly the pair that
`Chroot` of the filesystem it holds returned: the filesystem value of the
wrapped implementation, not a logger around it.  The call invokes the sink
once, with the line `Chroot(<p quoted>): <error or nil>`, after that `Chroot`
has returned.  An operation on the returned filesystem is an operation of the
wrapped implementation, and such an operation never invokes the sink. -/
theorem C6_Chroot_result_not_wrapped {σ : Type} (rt : Runtime) (o : BasicVal σ) (p : String)
    (w0 w : World σ) :
    let l := (Wrap o.traced World.sink w0).1
    let r := l.underlying.Chroot p w
    (l.Chroot rt p w).1 = r.1 ∧
    (l.Chroot rt p w).2 =
      { r.2 with trace := r.2.trace ++
          [Event.sink ["Chroot(" ++ rt.quote p ++ "): " ++ fmtError r.1.2]] } ∧
    sinkCalls (l.Chroot rt p w).2.trace =
      sinkCalls w.trace ++ [["Chroot(" ++ rt.quote p ++ "): " ++ fmtError r.1.2]] ∧
    ∀ (α : Type) (c : Call) (f : StateM σ α) (w' : World σ),
      sinkCalls (World.invoke c f w').2.trace = sinkCalls w'.trace := by
  intro l r
  rcases h : (polyfill.New o.traced).Chroot p w with ⟨⟨ret, err⟩, w1⟩
  have hr : r = ((ret, err), w1) := h
  have hrun := logger.Chroot_run rt l p h
  refine ⟨?_, ?_, ?_, ?_⟩
  · rw [hrun, hr]
  · rw [hrun, hr]
    rfl
  · obtain ⟨evs, h1, h2⟩ := sinkFree_Chroot o p w
    rw [h] at h1
    rw [hrun, hr]
    show sinkCalls (w1.trace ++ _) = _
    rw [h1, sinkCalls_append, sinkCalls_append, h2, List.append_nil]
    rfl
  · intro α c f w'
    show sinkCalls (w'.trace ++ [Event.call c]) = _
    rw [sinkCalls_append]
    exact List.append_nil _

/-- C7: when the wrapped `Stat` returns an error `e`, with or without a file
info, the logger passes to the sink the one line `Stat(<p quoted>): -, <e>`,
in which the file info has no part, and returns the same file info and the same
error. -/
theorem C7_Stat_error_line {τ : Type} (rt : Runtime) (l : logger τ) (p : String) (w w1 : τ)
    (fi : Option FileInfo) (e : GoError)
    (h : l.underlying.Stat p w = ((fi, some e), w1)) :
    l.Stat rt p w =
      (Outcome.returned (fi, some e),
        (l.log ["Stat(" ++ rt.quote p ++ "): -, " ++ e.Error] w1).2) :=
  logger.Stat_fail_run rt l p h

/-- C7 at the path `missing.txt` of the example filesystem: the line is
`Stat("missing.txt"): -, file does not exist`. -/
theorem C7_Stat_error_line_witness :
    (demoLogger demoFilesystem).underlying.Stat "missing.txt" demoWorld =
      ((none, some demoNotExist),
        { fs := 1, trace := [Event.call (Call.Stat "missing.txt")] }) ∧
    (demoLogger demoFilesystem).Stat demoRuntime "missing.txt" demoWorld =
      (Outcome.returned (none, some demoNotExist),
        { fs := 1, trace := [Event.call (Call.Stat "missing.txt"),
            Event.sink ["Stat(\"missing.txt\"): -, file does not exist"]] }) :=
  ⟨rfl, C7_Stat_error_line demoRuntime (demoLogger demoFilesystem) "missing.txt" demoWorld _
    none demoNotExist rfl⟩

/-- C9: let the logger hold any filesystem `u` in its field `underlying` (the
value passed to `Wrap`, or the `Polyfill` around it), observed, and the observed
sink.  One call of `Rename`, `Remove`, `MkdirAll` or `OpenFile` takes `u`
through exactly one call, of the operation of the same name with the operands
of the caller in their order: the state of `u` afterwards is the state that one
call leaves, and the events of the wrapper call are that call, then one sink
invocation. -/
theorem C9_mutations_forwarded_once {σ : Type} (rt : Runtime) (u : FilesystemVal σ)
    (w : World σ) :
    let l := logger.mk u.traced World.sink
    (∀ frm dst, l.Rename rt frm dst w =
      ((u.Rename frm dst w.fs).1,
        { fs := (u.Rename frm dst w.fs).2
          trace := w.trace ++ [Event.call (Call.Rename frm dst),
            Event.sink ["Rename(" ++ rt.quote frm ++ ", " ++ rt.quote dst ++ "): "
              ++ fmtError (u.Rename frm dst w.fs).1]] })) ∧
    (∀ p, l.Remove rt p w =
      ((u.Remove p w.fs).1,
        { fs := (u.Remove p w.fs).2
          trace := w.trace ++ [Event.call (Call.Remove p),
            Event.sink ["Remove(" ++ rt.quote p ++ "): " ++ fmtError (u.Remove p w.fs).1]] })) ∧
    (∀ p perm, l.MkdirAll rt p perm w =
      ((u.MkdirAll p perm w.fs).1,
        { fs := (u.MkdirAll p perm w.fs).2
          trace := w.trace ++ [Event.call (Call.MkdirAll p perm),
            Event.sink ["MkdirAll(" ++ rt.quote p ++ ", " ++ fmtSharpO perm ++ "): "
              ++ fmtError (u.MkdirAll p perm w.fs).1]] })) ∧
    (∀ p flag mode, l.OpenFile rt p flag mode w =
      ((u.OpenFile p flag mode w.fs).1,
        { fs := (u.OpenFile p flag mode w.fs).2
          trace := w.trace ++ [Event.call (Call.OpenFile p flag mode),
            Event.sink ["OpenFile(" ++ rt.quote p ++ ", " ++ toString flag ++ ", "
              ++ fmtSharpO mode ++ "): " ++ fmtError (u.OpenFile p flag mode w.fs).1.2]] })) := by
  intro l
  refine ⟨?_, ?_, ?_, ?_⟩
  · intro frm dst
    have h : l.underlying.Rename frm dst w =
        World.invoke (Call.Rename frm dst) (u.Rename frm dst) w := rfl
    rw [logger.Rename_run rt l frm dst h]
    exact Prod.ext rfl (World.sink_after_invoke _ _ _ _)
  · intro p
    have h : l.underlying.Remove p w = World.invoke (Call.Remove p) (u.Remove p) w := rfl
    rw [logger.Remove_run rt l p h]
    exact Prod.ext rfl (World.sink_after_invoke _ _ _ _)
  · intro p perm
    have h : l.underlying.MkdirAll p perm w =
        World.invoke (Call.MkdirAll p perm) (u.MkdirAll p perm) w := rfl
    rw [logger.MkdirAll_run rt l p perm h]
    exact Prod.ext rfl (World.sink_after_invoke _ _ _ _)
  · intro p flag mode
    have h : l.underlying.OpenFile p flag mode w =
        World.invoke (Call.OpenFile p flag mode) (u.OpenFile p flag mode) w := rfl
    rw [logger.OpenFile_run rt l p flag mode h]
    exact Prod.ext rfl (World.sink_after_invoke _ _ _ _)

/-- C10 fails on the code: the example value implements `billy.Basic` and
`billy.Change` (its `Chmod`, `Chown`, `Lchown` and `Chtimes` succeed) and not
the whole of `billy.Filesystem`.  The logger `Wrap` makes around it answers each
of the four with `billy.ErrNotSupported`, and no call reaches the value. -/
theorem C10_change_hidden_by_polyfill :
    demoChanging.asChange = some demoChange ∧
    demoChange.Chmod "a.txt" 420 0 = (none, 1) ∧
    (demoLogger demoChanging).underlying.asChange.isNone = true ∧
    (demoLogger demoChanging).Chmod demoRuntime "a.txt" 420 demoWorld =
      (some billy.ErrNotSupported,
        { fs := 0, trace := [Event.sink ["Chmod(\"a.txt\", 0644): feature not supported"]] }) ∧
    (demoLogger demoChanging).Chown demoRuntime "a.txt" 1000 100 demoWorld =
      (some billy.ErrNotSupported,
        { fs := 0, trace := [Event.sink ["Chown(\"a.txt\", 1000, 100): feature not supported"]] }) ∧
    (demoLogger demoChanging).Lchown demoRuntime "a.txt" 1000 100 demoWorld =
      (some billy.ErrNotSupported,
        { fs := 0, trace := [Event.sink ["Lchown(\"a.txt\", 1000, 100): feature not supported"]] })
            ∧
    (∀ atime mtime,
      ((demoLogger demoChanging).Chtimes demoRuntime "a.txt" atime mtime demoWorld).1 =
        some billy.ErrNotSupported ∧
      ((demoLogger demoChanging).Chtimes demoRuntime "a.txt" atime mtime demoWorld).2.fs = 0) :=
  ⟨rfl, rfl, rfl, rfl, rfl, rfl, fun _ _ => ⟨rfl, rfl⟩⟩

/-- The defect behind C10 in general: around a value that does not implement
the whole of `billy.Filesystem`, `Chmod` answers `billy.ErrNotSupported` and
reaches nothing but the sink, whether or not the value implements
`billy.Change`. -/
theorem change_refused_behind_polyfill {σ : Type} (rt : Runtime) (o : BasicVal σ)
    (h : o.asFilesystem = none) (w0 w : World σ) (p : String) (mode : os.FileMode) :
    (Wrap o.traced World.sink w0).1.Chmod rt p mode w =
      (some billy.ErrNotSupported,
        { w with trace := w.trace ++ [Event.sink ["Chmod(" ++ rt.quote p ++ ", "
          ++ fmtSharpO mode ++ "): " ++ billy.ErrNotSupported.Error]] }) := by
  have ht : o.traced.asFilesystem = none := by
    unfold BasicVal.asFilesystem at h ⊢
    rw [traced_asTempFile, traced_asDir, traced_asSymlink, traced_asChroot]
    cases h1 : o.asTempFile <;> cases h2 : o.asDir <;> cases h3 : o.asSymlink <;>
      cases h4 : o.asChroot <;> simp_all
  exact logger.Chmod_none_run rt _ p mode w (polyfill.New_asChange_of_asFilesystem_none o.traced ht)

/-- `Rename`, `Remove` and `OpenFile` of a logger made by `Wrap` reach the value
passed to `Wrap` itself, once; so does `MkdirAll` when that value implements
`billy.Dir`. -/
theorem mutations_reach_the_wrapped_value {σ : Type} (rt : Runtime) (o : BasicVal σ)
    (w0 w : World σ) :
    let l := (Wrap o.traced World.sink w0).1
    (∀ frm dst, (l.Rename rt frm dst w).2.trace = w.trace ++ [Event.call (Call.Rename frm dst),
      Event.sink ["Rename(" ++ rt.quote frm ++ ", " ++ rt.quote dst ++ "): "
        ++ fmtError (o.Rename frm dst w.fs).1]]) ∧
    (∀ p, (l.Remove rt p w).2.trace = w.trace ++ [Event.call (Call.Remove p),
      Event.sink ["Remove(" ++ rt.quote p ++ "): " ++ fmtError (o.Remove p w.fs).1]]) ∧
    (∀ p flag mode, (l.OpenFile rt p flag mode w).2.trace =
      w.trace ++ [Event.call (Call.OpenFile p flag mode),
        Event.sink ["OpenFile(" ++ rt.quote p ++ ", " ++ toString flag ++ ", "
          ++ fmtSharpO mode ++ "): " ++ fmtError (o.OpenFile p flag mode w.fs).1.2]]) ∧
    (∀ d, o.asDir = some d → ∀ p perm, (l.MkdirAll rt p perm w).2.trace =
      w.trace ++ [Event.call (Call.MkdirAll p perm),
        Event.sink ["MkdirAll(" ++ rt.quote p ++ ", " ++ fmtSharpO perm ++ "): "
          ++ fmtError (d.MkdirAll p perm w.fs).1]]) := by
  intro l
  refine ⟨?_, ?_, ?_, ?_⟩
  · intro frm dst
    rw [logger.Rename_run rt l frm dst (congrFun (polyfill_traced_Rename o frm dst) w)]
    exact congrArg World.trace (World.sink_after_invoke _ _ _ _)
  · intro p
    rw [logger.Remove_run rt l p (congrFun (polyfill_traced_Remove o p) w)]
    exact congrArg World.trace (World.sink_after_invoke _ _ _ _)
  · intro p flag mode
    rw [logger.OpenFile_run rt l p flag mode (congrFun (polyfill_traced_OpenFile o p flag mode) w)]
    exact congrArg World.trace (World.sink_after_invoke _ _ _ _)
  · intro d hd p perm
    rw [logger.MkdirAll_run rt l p perm (congrFun (polyfill_traced_MkdirAll_some o hd p perm) w)]
    exact congrArg World.trace (World.sink_after_invoke _ _ _ _)

/-- The four operations of `billy.Change` do reach a value that implements both
`billy.Filesystem` and `billy.Change`: `Wrap` keeps such a value as it is. -/
theorem change_delegated_for_a_filesystem {σ : Type} (rt : Runtime) (u : FilesystemVal σ)
    (c : billy.Change σ) (h : u.asChange = some c) (w0 w : World σ) (p : String)
    (mode : os.FileMode) :
    (Wrap u.toBasicVal.traced World.sink w0).1.Chmod rt p mode w =
      ((c.Chmod p mode w.fs).1,
        { fs := (c.Chmod p mode w.fs).2
          trace := w.trace ++ [Event.call (Call.Chmod p mode),
            Event.sink ["Chmod(" ++ rt.quote p ++ ", " ++ fmtSharpO mode ++ "): "
              ++ fmtError (c.Chmod p mode w.fs).1]] }) := by
  have hc : (Wrap u.toBasicVal.traced World.sink w0).1.underlying.asChange = some c.traced := by
    show (polyfill.New u.toBasicVal.traced).asChange = some c.traced
    have : u.toBasicVal.traced = u.traced.toBasicVal := rfl
    rw [this, polyfill.New_toBasicVal]
    show u.asChange.map billy.Change.traced = _
    rw [h]
    rfl
  have hrun : c.traced.Chmod p mode w = ((c.Chmod p mode w.fs).1,
      { fs := (c.Chmod p mode w.fs).2, trace := w.trace ++ [Event.call (Call.Chmod p mode)] }) :=
    rfl
  rw [logger.Chmod_some_run rt _ p mode hc hrun]
  exact Prod.ext rfl (World.sink_after_invoke _ _ _ _)

/-- The listing the example value `demoHollow` returns from `ReadDir`, with a nil
error, has a nil element: `ReadDir` of the logger around it panics after the
wrapped call and before the sink. -/
theorem ReadDir_panics_on_nil_element :
    ((demoLogger demoHollow).underlying.ReadDir "/" demoWorld).1 =
      (some [some (FileInfo.mk "a.txt" 420 false), none], none) ∧
    (demoLogger demoHollow).ReadDir demoRuntime "/" demoWorld =
      (Outcome.panicked, { fs := 1, trace := [Event.call (Call.ReadDir "/")] }) ∧
    (demoLogger demoHollow).Lstat demoRuntime "a.txt" demoWorld =
      (Outcome.panicked, { fs := 1, trace := [Event.call (Call.Lstat "a.txt")] }) :=
  ⟨rfl, rfl, rfl⟩

end BillyLogger
